import Mathlib

/-!
Shallow embedding of the EasyPD repository (src/EasyPD.py, src/device_comm.py,
src/pd_decoder.py) and proofs about its spec claims.

Modelling conventions, stated once:
* Python duck-typed decoded-packet objects are modelled by the inductive `Py`.
  For the `value` and `field` attributes, attribute presence and call success
  are modelled separately: the slot is `none` when `hasattr` is False, `some
  none` when the attribute is present but calling it raises, and `some (some
  v)` when the call returns v.  This keeps the source's raising paths
  expressible: `hasattr(child, "value")` in CableDataParser._get_metadata is
  only a presence check, and the unguarded `data_objects.value()`
  (pd_decoder.py line 173) and `field()` calls (lines 178, 264) propagate an
  exception out of CableDataParser.parse when the present attribute raises.
  The remaining accessors (raw, quick_pdo, quick_rdo and the external
  is_pdo/is_rdo results) are read only inside try/except in the source, so
  "missing" and "raising" are indistinguishable there and stay conflated as a
  single `none`.
* Python floats are modelled as rationals.
* `str()` of a Python list or of an opaque decoded object is modelled by the
  opaque nonempty placeholder strings "[...]" and "<obj>"; no claim inspects
  such text beyond nonemptiness.
* `int(s, 2)`, `int(s)` and `float(s)` are modelled on plain decimal/binary
  digit strings with an optional sign for `int(s)`/`float(s)`; Python's
  extended literal forms (underscores, surrounding whitespace, base prefixes,
  exponents) are outside the scope of every claim and are modelled as parse
  failure.
-/

/-- Keys of Python subscript access: the source subscripts packets both by
field name (pkg["Message Header"]) and by integer slot (pkg[3], pkg[4]). -/
inductive PyKey where
  | kstr (s : String)
  | knat (n : Nat)
deriving DecidableEq, BEq, Repr

/-- Model of a Python value/decoded-packet node as used by the source:
primitives, lists, and duck-typed metadata nodes exposing a field-type name
(.field()), subscript children, .value(), .raw(), quick_pdo()/quick_rdo(),
and the external witrnhid classification results is_pdo/is_rdo applied to the
node.  For `fieldName` and `value` the outer `Option` is attribute presence
(hasattr) and the inner one call success (`some none` = present but raising);
for the remaining accessors, read only under try/except in the source, a
single `none` models a missing attribute or a raising call. -/
inductive Py where
  | vstr (s : String) : Py
  | vbool (b : Bool) : Py
  | vint (n : Int) : Py
  | vlist (items : List Py) : Py
  | node (fieldName : Option (Option String))
         (children : List (PyKey × Py))
         (value : Option (Option Py))
         (raw : Option String)
         (quickPdo : Option Py)
         (quickRdo : Option Py)
         (isPdoRes : Option Bool)
         (isRdoRes : Option Bool) : Py

/-- Fuel-driven decimal digit extractor (structural recursion so that
concrete values reduce); the fuel never runs out when it starts at the
number itself. -/
def natDigitsRevFuel : Nat → Nat → List Char
  | 0, _ => []
  | _ + 1, 0 => []
  | fuel + 1, n + 1 =>
    Char.ofNat (48 + (n + 1) % 10) :: natDigitsRevFuel fuel ((n + 1) / 10)

/-- Decimal digits of a natural number, least significant first. -/
def natDigitsRev (n : Nat) : List Char := natDigitsRevFuel n n

/-- Decimal rendering of a natural number, mirroring Python str(int) for
nonnegative values. -/
def natDec (n : Nat) : String :=
  if n = 0 then "0" else String.mk (natDigitsRev n).reverse

/-- Decimal rendering of an integer, mirroring Python str(int). -/
def intDec (i : Int) : String :=
  if i < 0 then "-" ++ natDec i.natAbs else natDec i.natAbs

/-- Python str() applied to a modelled value. -/
def pyStr : Py → String
  | Py.vstr s => s
  | Py.vbool b => if b then "True" else "False"
  | Py.vint n => intDec n
  | Py.vlist _ => "[...]"
  | Py.node _ _ _ _ _ _ _ _ => "<obj>"

/-- Python str.upper() modelled as a character map (sufficient for the
ASCII-ish values the source uppercases). -/
def pyUpper (s : String) : String := String.mk (s.data.map Char.toUpper)

/-- Python truthiness of a modelled value. -/
def pyTruthy : Py → Bool
  | Py.vstr s => !(s == "")
  | Py.vbool b => b
  | Py.vint n => !(n == 0)
  | Py.vlist items => !items.isEmpty
  | Py.node _ _ _ _ _ _ _ _ => true

namespace Py

/-- Subscript access x[k]: child lookup on a metadata node; `none` models a
raising or unsupported subscript. -/
def getItem : Py → PyKey → Option Py
  | Py.node _ cs _ _ _ _ _ _, k => (cs.find? (fun p => p.1 == k)).map Prod.snd
  | _, _ => none

/-- The raw value-attribute slot: `none` when hasattr(x, "value") is False
(primitives carry no such attribute), `some none` when the attribute is
present but calling it raises, `some (some v)` when the call returns v. -/
def valueAttr : Py → Option (Option Py)
  | Py.node _ _ v _ _ _ _ _ => v
  | _ => none

/-- The result of x.value() at a call site wrapped in try/except: `none` when
the attribute is missing (AttributeError) or the call raises. -/
def valueCall (x : Py) : Option Py := x.valueAttr.bind id

/-- The raw field-name-attribute slot, with the same three-way reading as
valueAttr. -/
def fieldNameAttr : Py → Option (Option String)
  | Py.node f _ _ _ _ _ _ _ => f
  | _ => none

/-- The result of x.field() at a guarded call site: `none` when the attribute
is missing or the call raises. -/
def fieldCall (x : Py) : Option String := x.fieldNameAttr.bind id

/-- The result of x.raw(); `none` models a missing attribute or raising
call. -/
def rawAttr : Py → Option String
  | Py.node _ _ _ r _ _ _ _ => r
  | _ => none

/-- The result of x.quick_pdo(); `none` models failure. -/
def quickPdoAttr : Py → Option Py
  | Py.node _ _ _ _ q _ _ _ => q
  | _ => none

/-- The result of x.quick_rdo(); `none` models failure. -/
def quickRdoAttr : Py → Option Py
  | Py.node _ _ _ _ _ q _ _ => q
  | _ => none

/-- The result of the external witrnhid is_pdo(x); `none` models a raising
call. -/
def isPdoAttr : Py → Option Bool
  | Py.node _ _ _ _ _ _ b _ => b
  | _ => none

/-- The result of the external witrnhid is_rdo(x); `none` models a raising
call. -/
def isRdoAttr : Py → Option Bool
  | Py.node _ _ _ _ _ _ _ b => b
  | _ => none

end Py

/-- Does the pattern match at the head of the character list. -/
def charsHasPre : List Char → List Char → Bool
  | [], _ => true
  | _ :: _, [] => false
  | p :: ps, c :: cs => p == c && charsHasPre ps cs

/-- Substring containment on character lists, modelling Python "pat in s". -/
def charsHasSub (pat : List Char) : List Char → Bool
  | [] => pat.isEmpty
  | c :: cs => charsHasPre pat (c :: cs) || charsHasSub pat cs

/-- Python "pat in s" for strings. -/
def strContains (s pat : String) : Bool := charsHasSub pat.data s.data

/-! ## Hex rendering (src/pd_decoder.py, PDParser._bits_to_hex) -/

/-- Binary parse of a character list with accumulator, modelling int(s, 2) on
plain digit strings. -/
def parseBinAux (acc : Nat) : List Char → Option Nat
  | [] => some acc
  | c :: cs =>
    if c = '0' then parseBinAux (2 * acc) cs
    else if c = '1' then parseBinAux (2 * acc + 1) cs
    else none

/-- Python int(s, 2) on plain binary digit strings; empty or non-binary input
fails. -/
def pyParseBin (s : String) : Option Nat :=
  match s.data with
  | [] => none
  | c :: cs => parseBinAux 0 (c :: cs)

/-- Uppercase hex digit character for a value below 16, as produced by the
Python format specifier X. -/
def hexDigitChar (d : Nat) : Char :=
  if d < 10 then Char.ofNat (48 + d) else Char.ofNat (55 + d)

/-- Numeric value of a hex digit character, accepting both cases like
Python int(s, 16). -/
def hexDigitVal (c : Char) : Option Nat :=
  if 48 ≤ c.toNat ∧ c.toNat ≤ 57 then some (c.toNat - 48)
  else if 65 ≤ c.toNat ∧ c.toNat ≤ 70 then some (c.toNat - 55)
  else if 97 ≤ c.toNat ∧ c.toNat ≤ 102 then some (c.toNat - 87)
  else none

/-- Hex parse of a character list with accumulator. -/
def parseHexAux (acc : Nat) : List Char → Option Nat
  | [] => some acc
  | c :: cs =>
    match hexDigitVal c with
    | none => none
    | some d => parseHexAux (16 * acc + d) cs

/-- Python int(s, 16) on plain hex digit strings. -/
def parseHexChars (l : List Char) : Option Nat :=
  match l with
  | [] => none
  | c :: cs => parseHexAux 0 (c :: cs)

/-- Fuel-driven hex digit extractor (structural recursion so that concrete
values reduce); the fuel never runs out when it starts at the number
itself. -/
def hexDigitsRevFuel : Nat → Nat → List Char
  | 0, _ => []
  | _ + 1, 0 => []
  | fuel + 1, n + 1 => hexDigitChar ((n + 1) % 16) :: hexDigitsRevFuel fuel ((n + 1) / 16)

/-- Hex digits of a natural number, least significant first. -/
def hexDigitsRev (n : Nat) : List Char := hexDigitsRevFuel n n

/-- Natural ("no leading zeros") uppercase hex rendering of a natural number,
as produced by Python format X without padding. -/
def hexRep (n : Nat) : List Char :=
  if n = 0 then ['0'] else (hexDigitsRev n).reverse

/-- Zero-pad a digit list on the left to the requested minimum width, as the
Python 0-padding format flag does. -/
def padHex (w : Nat) (ds : List Char) : List Char :=
  List.replicate (w - ds.length) '0' ++ ds

namespace PDParser

/-- PDParser._bits_to_hex: empty input renders as the empty string, a failing
int(bit_str, 2) parse is caught and renders as the empty string, and otherwise
the value renders as 0x-prefixed uppercase hex zero-padded to
(len(bit_str) + 3) / 4 digits. -/
def bits_to_hex (s : String) : String :=
  if s.isEmpty then ""
  else
    match pyParseBin s with
    | none => ""
    | some v =>
      let width := (s.length + 3) / 4
      "0x" ++ String.mk (padHex width (hexRep v))

end PDParser

/-! ## Message classifier and PDO/RDO parsers (src/pd_decoder.py) -/

/-- Payload dictionaries handed to the pd_decoder entry points; only the
"data" key is read by them. -/
structure PdPayload where
  data : Option Py

/-- is_sink_cap: reads Message Header / Message Type, normalises with
strip().lower(), and looks for both "sink" and "cap"; any failure in the
chain is caught and yields False. -/
def is_sink_cap (pkg : Py) : Bool :=
  match ((pkg.getItem (PyKey.kstr "Message Header")).bind
      (fun h => h.getItem (PyKey.kstr "Message Type"))).bind Py.valueCall with
  | none => false
  | some v =>
    let normalized := (pyStr v).trim.toLower
    strContains normalized "sink" && strContains normalized "cap"

/-- is_pdo_packet: False for None; otherwise is_pdo(pkg) and not sink-caps,
with any exception from the underlying check caught as False. -/
def is_pdo_packet : Option Py → Bool
  | none => false
  | some pkg =>
    match pkg.isPdoAttr with
    | none => false
    | some b => b && !(is_sink_cap pkg)

/-- is_rdo_packet: False for None; otherwise is_rdo(pkg), with any exception
from the underlying check caught as False. -/
def is_rdo_packet : Option Py → Bool
  | none => false
  | some pkg =>
    match pkg.isRdoAttr with
    | none => false
    | some b => b

namespace PDParser

/-- PDParser._safe_raw: node.raw(), with any exception caught as the empty
string. -/
def safe_raw (node : Py) : String := (node.rawAttr).getD ""

/-- PDParser._safe_quick_call for quick_pdo: the str()-converted result, with
any exception caught as None. -/
def safe_quick_pdo (node : Py) : Option String := (node.quickPdoAttr).map pyStr

/-- PDParser._safe_quick_call for quick_rdo: the str()-converted result, with
any exception caught as None. -/
def safe_quick_rdo (node : Py) : Option String := (node.quickRdoAttr).map pyStr

/-- An emitted PDO entry dictionary. -/
structure PdoEntry where
  index : String
  summary : String
  raw : String
deriving DecidableEq, Repr

/-- The placeholder test of the parse_pdo loop: the object's value() equals
the string "Empty PDO" (a failing value() call is caught and does not skip). -/
def isEmptyPdo (obj : Py) : Bool :=
  match obj.valueCall with
  | some (Py.vstr s) => s == "Empty PDO"
  | _ => false

/-- The enumerate loop body of parse_pdo, carrying the running source index:
objects whose value() is "Empty PDO" are skipped; every other object emits an
entry whose index is str(idx + 1) over the source enumeration. -/
def pdoLoop : Nat → List Py → List PdoEntry
  | _, [] => []
  | idx, obj :: rest =>
    if isEmptyPdo obj then pdoLoop (idx + 1) rest
    else
      { index := natDec (idx + 1)
        summary := (safe_quick_pdo obj).getD ""
        raw := bits_to_hex (safe_raw obj) } :: pdoLoop (idx + 1) rest

/-- The header/slot read of parse_pdo: Message Header / Extended selects slot
4 or 3, whose value() is returned; `none` models the caught exception path. -/
def readPdoObjects (pkg : Py) : Option Py :=
  match ((pkg.getItem (PyKey.kstr "Message Header")).bind
      (fun h => h.getItem (PyKey.kstr "Extended"))).bind Py.valueCall with
  | none => none
  | some ext =>
    (pkg.getItem (PyKey.knat (if pyTruthy ext then 4 else 3))).bind Py.valueCall

/-- PDParser.parse_pdo: returns [] for an absent or falsy packet, a failed
header/slot read, or a non-list/empty object list; otherwise runs the
enumerate loop. -/
def parse_pdo (p : PdPayload) : List PdoEntry :=
  match p.data with
  | none => []
  | some pkg =>
    if !pyTruthy pkg then []
    else
      match readPdoObjects pkg with
      | none => []
      | some dv =>
        match dv with
        | Py.vlist objs => if objs.isEmpty then [] else pdoLoop 0 objs
        | _ => []

/-- The RDO info dictionary: summary always present, raw/details only when
nonempty. -/
structure RdoInfo where
  summary : String
  raw : Option String
  details : Option String
deriving DecidableEq, Repr

/-- PDParser.parse_rdo applied to the first data object: quick_rdo summary
with the documented defaults, hex raw only when nonempty, and the Object
Position value surfaced verbatim as "Position: {value}". -/
def parseRdoTarget (target : Py) : RdoInfo :=
  let summary0 := safe_quick_rdo target
  let summary :=
    match summary0 with
    | none => "Invalid RDO"
    | some s => if s = "" ∨ s = "Not a RDO" then "Invalid RDO" else s
  let rawDisplay := bits_to_hex (safe_raw target)
  let posText :=
    ((target.getItem (PyKey.kstr "Object Position")).bind Py.valueCall).map
      (fun v => "Position: " ++ pyStr v)
  { summary := summary
    raw := if rawDisplay = "" then none else some rawDisplay
    details := posText }

/-- PDParser.parse_rdo: "Invalid RDO" when the payload has no data, pkg[3]
cannot be read, or the object list is missing/empty/non-list; otherwise the
record derived from the first object. -/
def parse_rdo (p : PdPayload) : RdoInfo :=
  match p.data with
  | none => { summary := "Invalid RDO", raw := none, details := none }
  | some pkg =>
    match (pkg.getItem (PyKey.knat 3)).bind Py.valueCall with
    | none => { summary := "Invalid RDO", raw := none, details := none }
    | some dv =>
      match dv with
      | Py.vlist (target :: _) => parseRdoTarget target
      | _ => { summary := "Invalid RDO", raw := none, details := none }

end PDParser

/-! ## Cable identity parser (src/pd_decoder.py, CableDataParser) -/

/-- The literal string SOP followed by one apostrophe (ASCII 39), the SOP*
value designating the near cable plug. -/
def sopPrime : String := "SOP" ++ String.mk [Char.ofNat 39]

/-- The literal string SOP followed by two apostrophes, the SOP* value
designating the far cable plug. -/
def sopPrimePrime : String := "SOP" ++ String.mk [Char.ofNat 39, Char.ofNat 39]

namespace CableDataParser

/-- CableDataParser._get_metadata: subscript lookup guarded by hasattr
checks; yields the child only when it carries a value() (see the modelling
conventions at the top of the file). -/
def get_metadata (nd : Py) (field : String) : Option Py :=
  (nd.getItem (PyKey.kstr field)).bind
    (fun child => if child.valueAttr.isSome then some child else none)

/-- CableDataParser._get_value: the value() of the metadata child, with any
failure caught as None. -/
def get_value (nd : Py) (field : String) : Option Py :=
  (get_metadata nd field).bind Py.valueCall

/-- CableDataParser._find_by_field: scan for the first item whose field()
equals the requested name.  The hasattr(item, "field") guard checks presence
only, so an item whose field attribute is present but whose call raises
propagates the exception (the error outcome) out of the scan; items without
the attribute are skipped. -/
def find_by_field : List Py → String → Except Unit (Option Py)
  | [], _ => Except.ok none
  | it :: rest, name =>
    match it.fieldNameAttr with
    | none => find_by_field rest name
    | some none => Except.error ()
    | some (some s) =>
      if s = name then Except.ok (some it) else find_by_field rest name

/-- CableDataParser._fmt: None becomes the empty string, booleans become the
symbolic keys bool_true/bool_false, anything else str(). -/
def fmt : Option Py → String
  | none => ""
  | some (Py.vbool b) => if b then "bool_true" else "bool_false"
  | some v => pyStr v

/-- CableDataParser._extract_passive_info: the seven passive-cable fields,
formatted and filtered to nonempty values. -/
def extract_passive_info (nd : Py) : List (String × String) :=
  ([("cable_connector",
      fmt (get_value nd "USB Type-C plug to USB Type-C/Captive (Passive Cable)")),
    ("cable_termination", fmt (get_value nd "Cable Termination Type (Passive Cable)")),
    ("cable_max_voltage", fmt (get_value nd "Maximum VBUS Voltage (Passive Cable)")),
    ("cable_current",
      fmt (get_value nd "VBUS Current Handling Capability (Passive Cable)")),
    ("cable_highest_speed", fmt (get_value nd "USB Highest Speed (Passive Cable)")),
    ("cable_latency", fmt (get_value nd "Cable Latency (Passive Cable)")),
    ("cable_supports_epr", fmt (get_value nd "EPR Capable (Passive Cable)"))]).filter
    (fun r => !(r.2 == ""))

/-- CableDataParser._extract_active_info: the active-cable fields from the
primary VDO, the SBU row when the value is present (even when falsy, it is
filtered at the end with the rest), the secondary-VDO rows when present, all
filtered to nonempty values. -/
def extract_active_info (primary : Py) (secondary : Option Py) :
    List (String × String) :=
  (([("cable_connector", fmt (get_value primary "USB Type-C plug to USB Type-C/Captive")),
     ("cable_termination", fmt (get_value primary "Cable Termination Type (Active Cable)")),
     ("cable_max_voltage", fmt (get_value primary "Maximum VBUS Voltage (Active Cable)")),
     ("cable_current",
       fmt (get_value primary "VBUS Current Handling Capability (Active Cable)")),
     ("cable_highest_speed", fmt (get_value primary "USB Highest Speed (Active Cable)")),
     ("cable_supports_epr", fmt (get_value primary "EPR Capable (Active Cable)"))] ++
    (match get_value primary "SBU Supported" with
     | none => []
     | some sbu => [("cable_sbu", fmt (some sbu))]) ++
    (match secondary with
     | none => []
     | some snd2 =>
       [("cable_max_temp", fmt (get_value snd2 "Maximum Operating Temperature")),
        ("cable_shutdown_temp", fmt (get_value snd2 "Shutdown Temperature")),
        ("cable_usb4", fmt (get_value snd2 "USB4 Supported"))])).filter
    (fun r => !(r.2 == "")))

/-- CableDataParser._extract_vpd_info: the five VPD fields, formatted and
filtered to nonempty values. -/
def extract_vpd_info (nd : Py) : List (String × String) :=
  ([("cable_max_voltage", fmt (get_value nd "Maximum VBUS Voltage")),
    ("cable_charge_through", fmt (get_value nd "Charge Through Support")),
    ("cable_charge_through_current", fmt (get_value nd "Charge Through Current Support")),
    ("cable_vbus_impedance", fmt (get_value nd "VBUS Impedance")),
    ("cable_ground_impedance", fmt (get_value nd "Ground Impedance"))]).filter
    (fun r => !(r.2 == ""))

/-- The data extracted by the structural gates of CableDataParser.parse on a
matching packet: the SOP* value, the Command and Command Type strings, the
VDM entry list and its leading VDM Header object. -/
structure CableGate where
  sop : String
  cmd : String
  cmdType : String
  entries : List Py
  vdmHeader : Py

/-- The gate chain of CableDataParser.parse: data present, Message Header
metadata present, Message Type = Vendor_Defined, SOP* designating a cable
plug, a Data Objects child carrying a value attribute whose call returns a
nonempty list whose first entry is a VDM Header with Structured VDM type,
Command = Discover Identity and Command Type = ACK.  Any other shape yields
ok-None, except the two unguarded calls: the Data Objects value() call
(performed after the hasattr guard inside _get_metadata) and the first
entry's field() call (performed after its own hasattr guard) propagate when
the present attribute raises. -/
def cableGate (p : PdPayload) : Except Unit (Option CableGate) :=
  match p.data with
  | none => Except.ok none
  | some pkg =>
    match get_metadata pkg "Message Header" with
    | none => Except.ok none
    | some header =>
      match get_value header "Message Type" with
      | some (Py.vstr mt) =>
        if mt = "Vendor_Defined" then
          match get_value pkg "SOP*" with
          | some (Py.vstr sop) =>
            if sop = sopPrime ∨ sop = sopPrimePrime then
              match get_metadata pkg "Data Objects" with
              | none => Except.ok none
              | some dObjs =>
                match dObjs.valueAttr with
                | some (some (Py.vlist (e0 :: rest))) =>
                  (match e0.fieldNameAttr with
                   | none => Except.ok none
                   | some none => Except.error ()
                   | some (some f0) =>
                     if f0 = "VDM Header" then
                       match get_value e0 "VDM Type" with
                       | some (Py.vstr vt) =>
                         if vt = "Structured" then
                           match get_value e0 "Command", get_value e0 "Command Type" with
                           | some (Py.vstr c), some (Py.vstr ct) =>
                             if c = "Discover Identity" ∧ ct = "ACK" then
                               Except.ok (some { sop := sop, cmd := c, cmdType := ct,
                                                 entries := e0 :: rest, vdmHeader := e0 })
                             else Except.ok none
                           | _, _ => Except.ok none
                         else Except.ok none
                       | _ => Except.ok none
                     else Except.ok none)
                | some (some _) => Except.ok none
                | some none => Except.error ()
                | none => Except.error ()
            else Except.ok none
          | _ => Except.ok none
        else Except.ok none
      | _ => Except.ok none

/-- The six _find_by_field scans CableDataParser.parse performs on every
matching packet (pd_decoder.py lines 199, 215, 224-227), resolved before the
row list is assembled; each can propagate a raising field() call. -/
structure CableFinds where
  idHeader : Option Py
  productVdo : Option Py
  passiveVdo : Option Py
  activeVdo1 : Option Py
  activeVdo2 : Option Py
  vpdVdo : Option Py

/-- Run the six scans in source order, propagating the first raising one. -/
def cableFinds (entries : List Py) : Except Unit CableFinds :=
  match find_by_field entries "ID Header VDO" with
  | Except.error e => Except.error e
  | Except.ok idh =>
    match find_by_field entries "Product VDO" with
    | Except.error e => Except.error e
    | Except.ok pv =>
      match find_by_field entries "Passive Cable VDO" with
      | Except.error e => Except.error e
      | Except.ok pvdo =>
        match find_by_field entries "Active Cable VDO 1" with
        | Except.error e => Except.error e
        | Except.ok a1 =>
          match find_by_field entries "Active Cable VDO 2" with
          | Except.error e => Except.error e
          | Except.ok a2 =>
            match find_by_field entries "VPD VDO" with
            | Except.error e => Except.error e
            | Except.ok vpd =>
              Except.ok { idHeader := idh, productVdo := pv, passiveVdo := pvdo,
                          activeVdo1 := a1, activeVdo2 := a2, vpdVdo := vpd }

/-- The row-building phase of CableDataParser.parse on a matching packet with
resolved scans, in source order: optional SVID, the unconditional source and
command rows, the ID Header VDO rows, the Product VDO rows, and exactly one
cable-type block selected with priority passive > active > VPD.  The
vendor-name table (module vendor_ids_dict, external to src/) enters only
through the supplied resolver, covering _resolve_vendor_name applied to the
raw VID value. -/
def cableRows (resolveVendor : Option Py → Option String) (g : CableGate)
    (f : CableFinds) : List (String × String) :=
  (match get_value g.vdmHeader "SVID" with
   | some v => if pyTruthy v then [("cable_svid", pyStr v)] else []
   | none => []) ++
  [("cable_source", g.sop),
   ("cable_command", g.cmd ++ " (" ++ g.cmdType ++ ")")] ++
  (match f.idHeader with
   | none => []
   | some idh =>
     let vid := get_value idh "USB Vendor ID"
     let vendorName := resolveVendor vid
     (match vid with
      | some v =>
        if pyTruthy v then
          [("cable_vendor_id",
            match vendorName with
            | some nm => pyUpper (pyStr v) ++ " (" ++ nm ++ ")"
            | none => pyUpper (pyStr v))]
        else []
      | none => []) ++
     (if g.sop = sopPrime ∨ g.sop = sopPrimePrime then
        match get_value idh "Product Type (Cable Plug/VPD)" with
        | some r => if pyTruthy r then [("cable_role", pyStr r)] else []
        | none => []
      else [])) ++
  (match f.productVdo with
   | none => []
   | some pv =>
     (match get_value pv "USB Product ID" with
      | some v => if pyTruthy v then [("cable_product_id", pyUpper (pyStr v))] else []
      | none => []) ++
     (match get_value pv "bcdDevice" with
      | some v => if pyTruthy v then [("cable_device_version", pyUpper (pyStr v))] else []
      | none => [])) ++
  (match f.passiveVdo with
   | some pvdo => ("cable_type", "cable_type_passive") :: extract_passive_info pvdo
   | none =>
     match f.activeVdo1 with
     | some a1 =>
       ("cable_type", "cable_type_active") :: extract_active_info a1 f.activeVdo2
     | none =>
       match f.vpdVdo with
       | some vpd => ("cable_type", "cable_type_vpd") :: extract_vpd_info vpd
       | none => [])

/-- CableDataParser.parse: ok-None unless every structural gate passes, the
built rows otherwise (ok-None if they were empty); a raising value()/field()
call behind a passed hasattr guard propagates out as the error outcome, since
parse itself contains no try/except. -/
def parse (resolveVendor : Option Py → Option String) (p : PdPayload) :
    Except Unit (Option (List (String × String))) :=
  match cableGate p with
  | Except.error e => Except.error e
  | Except.ok none => Except.ok none
  | Except.ok (some g) =>
    match cableFinds g.entries with
    | Except.error e => Except.error e
    | Except.ok f =>
      let info := cableRows resolveVendor g f
      Except.ok (if info.isEmpty then none else some info)

end CableDataParser

/-! ## Ingestion worker (src/device_comm.py, data_collection_worker) -/

/-- The measurement dictionary assembled by the worker: current stored as an
absolute value, voltage as parsed, power = abs(voltage * current) when both
are present.  The string/float parsing chain (float(str(v).rstrip(...)) with
its fallback) is collapsed into the resulting optional numbers, which is all
the control flow observes. -/
structure Measurements where
  voltage : Option ℚ
  current : Option ℚ
  power : Option ℚ
deriving DecidableEq, Repr

/-- A packet as observed by the worker loop: the field() tag used for the PD
test, and the optional parsed Current / VBus numbers. -/
structure WPacket where
  fieldTag : Option String
  current : Option ℚ
  vbus : Option ℚ
deriving DecidableEq, Repr

/-- The worker's measurement extraction: dictionary entries keyed on which
parses succeeded. -/
def extractMeasurements (pkg : WPacket) : Measurements :=
  let cur := pkg.current.map (fun c => |c|)
  let vol := pkg.vbus
  { voltage := vol
    current := cur
    power :=
      match vol, cur with
      | some v, some c => some |v * c|
      | _, _ => none }

/-- Is the measurement dictionary nonempty (Python truthiness of the dict):
the power key is only ever set together with both others. -/
def measNonempty (m : Measurements) : Bool :=
  m.voltage.isSome || m.current.isSome

/-- A payload placed on the transport queue.  Keys absent from the Python
dictionary are `none`. -/
structure QPayload where
  timestamp : Option String
  timeSec : Option ℚ
  data : Option WPacket
  measurements : Option Measurements
  error : Option String
deriving DecidableEq, Repr

/-- One observable outcome of the blocking read + decode at the top of the
worker loop body, or of the enclosing connection attempt. -/
inductive ReadOutcome where
  | ok (timestampStr : String) (pkg : Option WPacket)
  | noUnpack
  | readError
  | otherError
  | openFailed (msg : String)
deriving Repr

/-- The worker's PD test: getattr(pkg, "field", lambda: None)() == "pd",
with exceptions caught as False. -/
def isPdPacket (pkg : WPacket) : Bool := pkg.fieldTag == some "pd"

/-- One iteration of data_collection_worker's loop body (plus the
connection-failure payload of the enclosing handler, as outcome openFailed).
Arguments: the shared pause flag value, the wall-clock time of the payload
construction and of the rate-limit check (two separate time.time() calls in
the source), the last_measurement_timestamp state, and the read outcome.
Returns the payloads placed on the queue, the new
last_measurement_timestamp, and whether the loop terminates.  The queue is
modelled as unbounded: a put_nowait dropped by a full queue only removes
enqueues and no claim depends on capacity. -/
def workerStep (pauseFlag : Nat) (tPayload tCheck : ℚ) (lastTs : ℚ)
    (r : ReadOutcome) : List QPayload × ℚ × Bool :=
  match r with
  | ReadOutcome.openFailed msg =>
    ([{ timestamp := none, timeSec := none, data := none, measurements := none,
        error := some ("connection_failed: " ++ msg) }], lastTs, true)
  | ReadOutcome.readError =>
    ([{ timestamp := none, timeSec := none, data := none, measurements := none,
        error := some "device_disconnected" }], lastTs, true)
  | ReadOutcome.otherError => ([], lastTs, false)
  | ReadOutcome.noUnpack => ([], lastTs, false)
  | ReadOutcome.ok _ none => ([], lastTs, false)
  | ReadOutcome.ok ts (some pkg) =>
    let basePayload : QPayload :=
      { timestamp := some ts, timeSec := some tPayload, data := some pkg,
        measurements := none, error := none }
    let meas := extractMeasurements pkg
    if isPdPacket pkg then
      if pauseFlag == 1 then ([], lastTs, false)
      else ([basePayload], lastTs, false)
    else if measNonempty meas then
      if pauseFlag == 0 && decide ((1 : ℚ)/5 ≤ tCheck - lastTs) then
        ([{ basePayload with measurements := some meas }], tCheck, false)
      else ([], lastTs, false)
    else ([], lastTs, false)

/-! ## Decimal parsing and the .3f format (src/EasyPD.py export/import) -/

/-- Decimal parse of a character list with accumulator; fails on any
non-digit. -/
def parseDecAux (acc : Nat) : List Char → Option Nat
  | [] => some acc
  | c :: cs =>
    if 48 ≤ c.toNat ∧ c.toNat ≤ 57 then parseDecAux (10 * acc + (c.toNat - 48)) cs
    else none

/-- Decimal parse of a nonempty all-digit character list. -/
def parseDecDigits (l : List Char) : Option Nat :=
  match l with
  | [] => none
  | c :: cs => parseDecAux 0 (c :: cs)

/-- Python int(s) on plain optionally-signed decimal strings. -/
def pyParseInt (s : String) : Option ℤ :=
  match s.data with
  | [] => none
  | c :: rest =>
    if c = '-' then (parseDecDigits rest).map (fun n => -(n : ℤ))
    else if c = '+' then (parseDecDigits rest).map (fun n => (n : ℤ))
    else (parseDecDigits (c :: rest)).map (fun n => (n : ℤ))

/-- Magnitude of Python float(s) on plain decimal strings: digits with an
optional single dot, at least one digit overall. -/
def pyParseFloatMag (l : List Char) : Option ℚ :=
  let ip := l.takeWhile (fun c => !(c == '.'))
  let rest := l.dropWhile (fun c => !(c == '.'))
  match rest with
  | [] => (parseDecDigits ip).map (fun n => (n : ℚ))
  | _ :: frac =>
    if ip.isEmpty ∧ frac.isEmpty then none
    else
      match parseDecAux 0 ip, parseDecAux 0 frac with
      | some n, some f => some ((n : ℚ) + (f : ℚ) / (10 : ℚ) ^ frac.length)
      | _, _ => none

/-- Python float(s) on plain optionally-signed decimal strings. -/
def pyParseFloat (s : String) : Option ℚ :=
  match s.data with
  | [] => none
  | c :: rest =>
    if c = '-' then
      if rest.isEmpty then none else (pyParseFloatMag rest).map Neg.neg
    else if c = '+' then
      if rest.isEmpty then none else pyParseFloatMag rest
    else pyParseFloatMag (c :: rest)

/-- Round to the nearest integer, ties to even, as the .3f format rounds the
scaled value. -/
def roundHalfEven (q : ℚ) : ℤ :=
  let f := ⌊q⌋
  let r := q - (f : ℚ)
  if r < 1/2 then f
  else if 1/2 < r then f + 1
  else if Even f then f else f + 1

/-- Three-digit zero-padded decimal rendering of a value below 1000. -/
def pad3 (m : Nat) : String :=
  if m < 10 then "00" ++ natDec m
  else if m < 100 then "0" ++ natDec m
  else natDec m

/-- The Python format f-string .3f applied to a rational: the value scaled by
1000 and rounded, rendered with exactly three decimal places.  (For a value
whose scaled magnitude rounds to zero from below, Python prints -0.000 while
this prints 0.000; the two parse back to the same rational, which is all any
claim observes.) -/
def fmt3 (q : ℚ) : String :=
  let n := roundHalfEven (q * 1000)
  (if n < 0 then "-" else "") ++ natDec (n.natAbs / 1000) ++ "." ++ pad3 (n.natAbs % 1000)

/-! ## Record store, export and import (src/EasyPD.py) -/

namespace EasyPD

/-- The UI cap on visible protocol records (self.ui_log_limit). -/
def ui_log_limit : Nat := 5000

/-- The UI cap on visible measurement records (self.ui_measurement_limit). -/
def ui_measurement_limit : Nat := 10000

/-- The detail payload stored under a protocol record's data key: None, a
parse_pdo entry list, or a parse_rdo-shaped dictionary. -/
inductive RecData where
  | dnone : RecData
  | pdo (entries : List PDParser.PdoEntry) : RecData
  | rdoD (raw : Option String) (details : Option String) : RecData
deriving DecidableEq, Repr

/-- A protocol record of the store (raw_log_records / log_records). -/
structure ProtRec where
  index : ℤ
  timestamp : String
  relativeTime : ℚ
  rtype : String
  summary : String
  data : RecData
deriving DecidableEq, Repr

/-- A measurement record of the store (raw_measurement_records /
measurement_records).  The numeric fields are optional because
_handle_payload stores whatever subset the payload carried. -/
structure MeasRec where
  index : ℤ
  timestamp : String
  relativeTime : ℚ
  rtype : String
  voltage : Option ℚ
  current : Option ℚ
  power : Option ℚ
deriving DecidableEq, Repr

/-- The detail string written by _export_csv for a protocol record: joined
PDO entries for PDO records with list data, Raw/position parts for RDO
records with dictionary data, empty otherwise. -/
def exportDetail (r : ProtRec) : String :=
  if r.rtype = "PDO" then
    match r.data with
    | RecData.pdo entries =>
      String.intercalate " | " (entries.map (fun e =>
        "PDO" ++ e.index ++ ": " ++ e.summary ++ " [" ++ e.raw ++ "]"))
    | _ => ""
  else if r.rtype = "RDO" then
    match r.data with
    | RecData.rdoD raw det =>
      String.intercalate " | "
        ((match raw with
          | some s => if s = "" then [] else ["Raw: " ++ s]
          | none => []) ++
         (match det with
          | some s => if s = "" then [] else [s]
          | none => []))
    | _ => ""
  else ""

/-- The six-column CSV row written for a protocol record. -/
def exportProtRow (r : ProtRec) : List String :=
  [intDec r.index, r.timestamp, fmt3 r.relativeTime, r.rtype, r.summary, exportDetail r]

/-- The nine-column CSV row written for a measurement record; formatting a
missing numeric field raises in the source, modelled as `none`. -/
def exportMeasRow (r : MeasRec) : Option (List String) :=
  match r.voltage, r.current, r.power with
  | some v, some c, some p =>
    some [intDec r.index, r.timestamp, fmt3 r.relativeTime, r.rtype,
          "V:" ++ fmt3 v ++ "V I:" ++ fmt3 c ++ "A P:" ++ fmt3 p ++ "W",
          "", fmt3 v, fmt3 c, fmt3 p]
  | _, _, _ => none

/-- _export_csv at the CSV row level: nothing is written when both raw stores
are empty; the header row carries the six localized labels (module i18n,
external to src/, hence a parameter) plus the three literal measurement
labels; protocol rows precede measurement rows; a failing measurement row
aborts the export. -/
def export_csv (hdr6 : List String) (prots : List ProtRec) (meas : List MeasRec) :
    Option (List (List String)) :=
  if prots.isEmpty ∧ meas.isEmpty then none
  else
    (meas.mapM exportMeasRow).map (fun measRows =>
      (hdr6 ++ ["Voltage(V)", "Current(A)", "Power(W)"]) ::
        (prots.map exportProtRow ++ measRows))

/-- The four store lists as rebuilt by _import_csv after the reset. -/
structure ImpState where
  rawLog : List ProtRec
  visLog : List ProtRec
  rawMeas : List MeasRec
  visMeas : List MeasRec
deriving DecidableEq, Repr

/-- The store state right after _reset_records_state. -/
def emptyImpState : ImpState := ⟨[], [], [], []⟩

/-- First-occurrence split with the separator removed, modelling
str.split(sep, 1) when it finds the separator. -/
def splitOnce (sep : List Char) : List Char → Option (List Char × List Char)
  | [] => none
  | c :: cs =>
    if charsHasPre sep (c :: cs) then some ([], (c :: cs).drop sep.length)
    else (splitOnce sep cs).map (fun pr => (c :: pr.1, pr.2))

/-- Index of the last occurrence of a character, modelling str.rindex when
the character is present. -/
def lastIdxOf : List Char → Char → Option Nat
  | [], _ => none
  | x :: xs, c =>
    match lastIdxOf xs c with
    | some i => some (i + 1)
    | none => if x == c then some 0 else none

/-- The per-entry PDO detail parse of _import_csv: entries starting with PDO,
split once on ": ", index with PDO removed, summary and raw recovered around
the last bracket pair. -/
def parsePdoDetailEntry (entry : String) : Option PDParser.PdoEntry :=
  if entry.startsWith "PDO" then
    match splitOnce (String.data ": ") entry.data with
    | none => none
    | some (p0, rest) =>
      if rest.contains '[' && rest.contains ']' then
        match lastIdxOf rest '[', lastIdxOf rest ']' with
        | some li, some lj =>
          some { index := (String.mk p0).replace "PDO" "",
                 summary := (String.mk (rest.take li)).trim,
                 raw := String.mk ((rest.drop (li + 1)).take (lj - (li + 1))) }
        | _, _ => none
      else none
  else none

/-- The PDO detail parse of _import_csv: split on the joiner, keep the
entries that parse. -/
def parsePdoDetail (detailStr : String) : List PDParser.PdoEntry :=
  (detailStr.splitOn " | ").filterMap parsePdoDetailEntry

/-- The RDO detail parse of _import_csv: Raw-prefixed part fills raw, any
other nonempty part fills details, later parts win. -/
def parseRdoDetail (detailStr : String) : RecData :=
  let r := (detailStr.splitOn " | ").foldl
    (fun (acc : Option String × Option String) (part : String) =>
      if part.startsWith "Raw: " then (some (part.replace "Raw: " ""), acc.2)
      else if part ≠ "" then (acc.1, some part) else acc)
    (none, none)
  RecData.rdoD r.1 r.2

/-- The protocol record built by an import row. -/
def importProtOf (index : ℤ) (timestamp : String) (relativeTime : ℚ)
    (recordType summary detailStr : String) : ProtRec :=
  let data :=
    if recordType = "PDO" ∧ detailStr ≠ "" then RecData.pdo (parsePdoDetail detailStr)
    else if recordType = "RDO" ∧ detailStr ≠ "" then parseRdoDetail detailStr
    else RecData.dnone
  { index := index, timestamp := timestamp, relativeTime := relativeTime,
    rtype := recordType, summary := summary, data := data }

/-- Append a protocol record: always to the raw store, to the visible store
only below the UI cap. -/
def addProt (st : ImpState) (r : ProtRec) : ImpState :=
  { st with rawLog := st.rawLog ++ [r],
            visLog := if st.visLog.length < ui_log_limit then st.visLog ++ [r]
                      else st.visLog }

/-- Append a measurement record: always to the raw store, to the visible
store only below the UI cap. -/
def addMeas (st : ImpState) (m : MeasRec) : ImpState :=
  { st with rawMeas := st.rawMeas ++ [m],
            visMeas := if st.visMeas.length < ui_measurement_limit then st.visMeas ++ [m]
                       else st.visMeas }

/-- One row of the _import_csv loop: short rows skipped; index and relative
time must parse or the row is skipped; rows with three nonempty parseable
numeric tail columns become measurement records (current stored absolute);
everything else becomes a protocol record with the detail re-parsed. -/
def importRow (st : ImpState) (row : List String) : ImpState :=
  if row.length < 5 then st
  else
    match pyParseInt (row.getD 0 "") with
    | none => st
    | some index =>
      match pyParseFloat (row.getD 2 "") with
      | none => st
      | some relativeTime =>
        let timestamp := row.getD 1 ""
        let recordType := row.getD 3 ""
        let summary := row.getD 4 ""
        let detailStr := row.getD 5 ""
        let protFallback :=
          addProt st (importProtOf index timestamp relativeTime recordType summary detailStr)
        if 8 < row.length ∧ ¬(row.getD 6 "" = "") ∧ ¬(row.getD 7 "" = "") ∧
            ¬(row.getD 8 "" = "") then
          match pyParseFloat (row.getD 6 ""), pyParseFloat (row.getD 7 ""),
              pyParseFloat (row.getD 8 "") with
          | some voltage, some current0, some power =>
            addMeas st { index := index, timestamp := timestamp,
                         relativeTime := relativeTime, rtype := "MEASUREMENT",
                         voltage := some voltage, current := some |current0|,
                         power := some power }
          | _, _, _ => protFallback
        else protFallback

/-- _import_csv at the CSV row level: reset, drop the first row when it
equals one of the two localized six-label header variants (parameters, the
i18n table is external to src/), then fold the row loop. -/
def import_csv (zh6 en6 : List String) (rows : List (List String)) : ImpState :=
  let rows1 :=
    match rows with
    | [] => []
    | r0 :: rest => if r0 = zh6 ∨ r0 = en6 then rest else r0 :: rest
  rows1.foldl importRow emptyImpState

/-- The batching tick of _batch_update_ui for one record kind: nothing
happens without pending records; the raw store always extends; the visible
store is trimmed from the front only when it already reached the cap before
insertion, by (visible + pending − cap) items, and then extends by the whole
pending batch. -/
def batchApply {α : Type} (limit : Nat) (raw visible pending : List α) :
    List α × List α :=
  if pending.isEmpty then (raw, visible)
  else
    let raw2 := raw ++ pending
    let visible2 :=
      if limit ≤ visible.length then
        let removeCount := visible.length + pending.length - limit
        if 0 < removeCount then visible.drop removeCount else visible
      else visible
    (raw2, visible2 ++ pending)

end EasyPD

/-! ## Auto-pause controller (src/EasyPD.py) -/

namespace EasyPD

/-- The viewer state observed and mutated by the auto-pause controller and
_toggle_collection.  Message boxes, labels and other UI effects are not part
of the state. -/
structure AppState where
  deviceOpen : Bool
  isPaused : Bool
  pauseFlagValue : Nat
  startTime : Option ℚ
  autoPauseEnabled : Bool
  voltageThreshold : ℚ
  currentThreshold : ℚ
  autoPauseMetric : String
  autoPauseDelaySeconds : ℚ
  lastVoltage : Option ℚ
  lastCurrent : Option ℚ
  pendingMetric : Option String
  pendingThreshold : Option ℚ
  timerActive : Bool
deriving DecidableEq, Repr

/-- _cancel_auto_pause_delay: stop the timer if active, clear the remembered
pair. -/
def cancelAutoPauseDelay (st : AppState) : AppState :=
  { st with timerActive := false, pendingMetric := none, pendingThreshold := none }

/-- _toggle_collection: no-op without an open device; otherwise cancel any
pending delay and flip between running (pause flag 0, start time set once)
and paused (pause flag 1). -/
def toggleCollection (now : ℚ) (st : AppState) : AppState :=
  if !st.deviceOpen then st
  else
    let st1 := cancelAutoPauseDelay st
    if st1.isPaused then
      { st1 with isPaused := false, pauseFlagValue := 0,
                 startTime := match st1.startTime with
                              | none => some now
                              | some t => some t }
    else { st1 with isPaused := true, pauseFlagValue := 1 }

/-- _apply_auto_pause_trigger: a no-op when already paused; otherwise cancel
the delay and toggle collection (to paused).  The metric/value/threshold
arguments only feed the message box in the source. -/
def applyAutoPauseTrigger (now : ℚ) (metricArg : String) (valueArg : Option ℚ)
    (thresholdArg : ℚ) (st : AppState) : AppState :=
  if st.isPaused then st
  else toggleCollection now (cancelAutoPauseDelay st)

/-- _schedule_auto_pause_delay: int(delay * 1000) milliseconds; nothing is
scheduled when that is not positive; an already-active timer is never
restarted and the remembered pair is left untouched; otherwise the pair is
remembered and the one-shot timer started.  (Python int() truncates toward
zero while this floors; they agree on the nonnegative delays that reach this
point and both take the not-positive branch on negative ones.) -/
def scheduleAutoPauseDelay (metric : String) (threshold : ℚ) (st : AppState) :
    AppState :=
  let delayMs : ℤ := ⌊st.autoPauseDelaySeconds * 1000⌋
  if delayMs ≤ 0 then st
  else if st.timerActive then st
  else { st with pendingMetric := some metric, pendingThreshold := some threshold,
                 timerActive := true }

/-- _check_and_apply_auto_pause on one measurement sample: cancel and return
when disabled, device closed, already paused, or the configured metric value
is absent; below threshold either trigger immediately (delay not positive)
or schedule; at or above threshold cancel any pending delay. -/
def checkAndApplyAutoPause (now : ℚ) (voltage current : Option ℚ)
    (st : AppState) : AppState :=
  if !st.autoPauseEnabled || !st.deviceOpen || st.isPaused then
    cancelAutoPauseDelay st
  else
    let metric := if st.autoPauseMetric = "voltage" ∨ st.autoPauseMetric = "current"
                  then st.autoPauseMetric else "voltage"
    let threshold := if metric = "voltage" then st.voltageThreshold
                     else st.currentThreshold
    let value := if metric = "voltage" then voltage else current
    match value with
    | none => cancelAutoPauseDelay st
    | some x =>
      if x < threshold then
        if st.autoPauseDelaySeconds ≤ 0 then
          applyAutoPauseTrigger now metric (some x) threshold st
        else scheduleAutoPauseDelay metric threshold st
      else cancelAutoPauseDelay st

/-- _execute_pending_auto_pause, run when the one-shot timer fires (Qt marks
the timer inactive before the slot runs): take and clear the remembered
pair, re-read the latest observed value for the remembered metric, and
trigger pause only if it is still below the remembered threshold. -/
def executePendingAutoPause (now : ℚ) (st0 : AppState) : AppState :=
  let st1 := { st0 with timerActive := false }
  let metric := st1.pendingMetric
  let threshold := st1.pendingThreshold
  let st := { st1 with pendingMetric := none, pendingThreshold := none }
  match metric, threshold with
  | some m, some th =>
    if m = "" then st
    else
      let currentValue := if m = "voltage" then st.lastVoltage else st.lastCurrent
      match currentValue with
      | none => st
      | some x => if x < th then applyAutoPauseTrigger now m (some x) th st else st
  | _, _ => st

end EasyPD

/-! ## Concrete packets and states used by witnesses and counterexamples -/

/-- A placeholder PDO object: its value() is the string "Empty PDO". -/
def emptyPdoObj : Py :=
  Py.node none [] (some (some (Py.vstr "Empty PDO"))) none none none none none

/-- A plain PDO object with a quick summary and raw bits. -/
def samplePdoObj : Py :=
  Py.node none [] (some (some (Py.vstr "Fixed"))) (some "101")
    (some (Py.vstr "5V 3A")) none none none

/-- A minimal packet wrapper that reaches the parse_pdo enumerate loop with
the given object list: non-extended header and the list in slot 3. -/
def mkPdoPayload (objs : List Py) : PdPayload :=
  { data := some (Py.node none
      [(PyKey.kstr "Message Header",
        Py.node none
          [(PyKey.kstr "Extended",
            Py.node none [] (some (some (Py.vbool false))) none none none none none)]
          (some (some (Py.vstr "hdr"))) none none none none none),
       (PyKey.knat 3,
        Py.node none [] (some (some (Py.vlist objs))) none none none none none)]
      none none none none none none) }

/-- An RDO data object with quick summary, raw bits and an Object Position
field whose value is the integer 2. -/
def rdoTargetObj : Py :=
  Py.node none
    [(PyKey.kstr "Object Position",
      Py.node none [] (some (some (Py.vint 2))) none none none none none)]
    (some (some (Py.vstr "rdo"))) (some "101") none (some (Py.vstr "5V 3A")) none none

/-- A minimal packet wrapper that reaches the parse_rdo target extraction
with the given object list in slot 3. -/
def mkRdoPayload (objs : List Py) : PdPayload :=
  { data := some (Py.node none
      [(PyKey.knat 3,
        Py.node none [] (some (some (Py.vlist objs))) none none none none none)]
      none none none none none none) }

/-- A well-formed six-column PDO CSV row with a distinct decimal index, as
used to exercise the import path. -/
def c1Row (i : Nat) : List String := [natDec i, "t", "0", "PDO", "", ""]

/-- The protocol record the import loop reconstructs from c1Row. -/
def c1Rec (i : Nat) : EasyPD.ProtRec :=
  { index := (i : ℤ), timestamp := "t", relativeTime := 0, rtype := "PDO",
    summary := "", data := EasyPD.RecData.dnone }

/-- A viewer state with auto-pause enabled on voltage threshold 5 and a
sub-millisecond delay of 0.0005 s, running with an open device. -/
def cexC3State : EasyPD.AppState :=
  { deviceOpen := true, isPaused := false, pauseFlagValue := 0,
    startTime := some 0, autoPauseEnabled := true, voltageThreshold := 5,
    currentThreshold := 0, autoPauseMetric := "voltage",
    autoPauseDelaySeconds := 1/2000, lastVoltage := none, lastCurrent := none,
    pendingMetric := none, pendingThreshold := none, timerActive := false }

/-- The same viewer state with a one-second delay. -/
def witC3State : EasyPD.AppState :=
  { cexC3State with autoPauseDelaySeconds := 1 }


/-- The VDM Header data object of a well-formed Discover-Identity ACK:
Structured VDM, Discover Identity command, ACK command type, and an SVID
value. -/
def c6VdmHeader : Py :=
  Py.node (some (some "VDM Header"))
    [(PyKey.kstr "VDM Type",
      Py.node none [] (some (some (Py.vstr "Structured"))) none none none none none),
     (PyKey.kstr "Command",
      Py.node none [] (some (some (Py.vstr "Discover Identity"))) none none none none none),
     (PyKey.kstr "Command Type",
      Py.node none [] (some (some (Py.vstr "ACK"))) none none none none none),
     (PyKey.kstr "SVID",
      Py.node none [] (some (some (Py.vstr "FF00"))) none none none none none)]
    (some (some (Py.vstr "vdm"))) none none none none none

/-- A packet passing every structural gate of CableDataParser.parse: a
Vendor_Defined message on SOP-prime whose Data Objects list starts with
c6VdmHeader. -/
def c6Payload : PdPayload :=
  { data := some (Py.node none
      [(PyKey.kstr "Message Header",
        Py.node none
          [(PyKey.kstr "Message Type",
            Py.node none [] (some (some (Py.vstr "Vendor_Defined"))) none none none none none)]
          (some (some (Py.vstr "hdr"))) none none none none none),
       (PyKey.kstr "SOP*",
        Py.node none [] (some (some (Py.vstr sopPrime))) none none none none none),
       (PyKey.kstr "Data Objects",
        Py.node none [] (some (some (Py.vlist [c6VdmHeader]))) none none none none none)]
      none none none none none none) }

/-- The gate data CableDataParser.cableGate extracts from c6Payload. -/
def c6Gate : CableDataParser.CableGate :=
  { sop := sopPrime, cmd := "Discover Identity", cmdType := "ACK",
    entries := [c6VdmHeader], vdmHeader := c6VdmHeader }

/-- The resolved scans for c6Payload: none of the optional VDOs is present. -/
def c6Finds : CableDataParser.CableFinds :=
  { idHeader := none, productVdo := none, passiveVdo := none,
    activeVdo1 := none, activeVdo2 := none, vpdVdo := none }

/-- A Data Objects metadata child whose value attribute is present (hasattr
succeeds) but whose value() call raises. -/
def c6BadDataObjects : Py :=
  Py.node none [] (some none) none none none none none

/-- A packet body identical to c6Payload's except that the Data Objects
child's value() call raises: every guarded gate up to it passes, the hasattr
check inside _get_metadata passes too, and the unguarded value() call at
pd_decoder.py line 173 is reached. -/
def c6BadPkg : Py :=
  Py.node none
    [(PyKey.kstr "Message Header",
      Py.node none
        [(PyKey.kstr "Message Type",
          Py.node none [] (some (some (Py.vstr "Vendor_Defined"))) none none none none none)]
        (some (some (Py.vstr "hdr"))) none none none none none),
     (PyKey.kstr "SOP*",
      Py.node none [] (some (some (Py.vstr sopPrime))) none none none none none),
     (PyKey.kstr "Data Objects", c6BadDataObjects)]
    none none none none none none

/-- The payload wrapping c6BadPkg. -/
def c6BadPayload : PdPayload := { data := some c6BadPkg }

/-- A vendor-name resolver with an empty table. -/
def c6rv : Option Py → Option String := fun _ => none


/-- The value reconstructed after one pass through the .3f wire format:
scaled by 1000, rounded half to even, scaled back. -/
def roundTrip3 (q : ℚ) : ℚ := ((roundHalfEven (q * 1000) : ℚ)) / 1000

/-- The protocol record _import_csv rebuilds from the CSV row _export_csv
wrote for a protocol record. -/
def reimportProt (r : EasyPD.ProtRec) : EasyPD.ProtRec :=
  EasyPD.importProtOf r.index r.timestamp (roundTrip3 r.relativeTime) r.rtype
    r.summary (EasyPD.exportDetail r)

/-- The measurement record _import_csv rebuilds from the CSV row _export_csv
wrote for a measurement record. -/
def reimportMeas (m : EasyPD.MeasRec) : EasyPD.MeasRec :=
  { index := m.index, timestamp := m.timestamp,
    relativeTime := roundTrip3 m.relativeTime, rtype := "MEASUREMENT",
    voltage := m.voltage.map roundTrip3,
    current := (m.current.map roundTrip3).map (fun x => |x|),
    power := m.power.map roundTrip3 }

/-- A six-label CSV header whose first label does not parse as an integer. -/
def c8cHdr6 : List String := ["Index", "Time", "Rel", "Type", "Summary", "Detail"]

/-- A protocol record whose relative time is not a multiple of one
millisecond. -/
def c8cProt : EasyPD.ProtRec :=
  { index := 1, timestamp := "t", relativeTime := 1 / 10000, rtype := "INFO",
    summary := "s", data := EasyPD.RecData.dnone }

/-- The CSV rows _export_csv writes for the single record c8cProt. -/
def c8cRows : List (List String) :=
  (c8cHdr6 ++ ["Voltage(V)", "Current(A)", "Power(W)"]) ::
    ([c8cProt].map EasyPD.exportProtRow ++ [])

/-- A protocol record whose relative time is an exact multiple of one
millisecond. -/
def c8wProt : EasyPD.ProtRec :=
  { index := 2, timestamp := "t2", relativeTime := 1 / 2, rtype := "PDO",
    summary := "cap", data := EasyPD.RecData.dnone }

/-- A complete measurement record whose relative time is an exact multiple of
one millisecond. -/
def c8wMeas : EasyPD.MeasRec :=
  { index := 3, timestamp := "t3", relativeTime := 1, rtype := "MEASUREMENT",
    voltage := some 5, current := some 1, power := some 5 }

/-- The CSV rows _export_csv writes for c8wProt and c8wMeas. -/
def c8wRows : List (List String) :=
  (c8cHdr6 ++ ["Voltage(V)", "Current(A)", "Power(W)"]) ::
    ([c8wProt].map EasyPD.exportProtRow ++
     [[intDec c8wMeas.index, c8wMeas.timestamp, fmt3 c8wMeas.relativeTime,
       c8wMeas.rtype,
       "V:" ++ fmt3 5 ++ "V I:" ++ fmt3 1 ++ "A P:" ++ fmt3 5 ++ "W",
       "", fmt3 5, fmt3 1, fmt3 5]])

/-! ## Lemmas about the hex rendering -/

theorem natDigitsRevFuel_congr :
    ∀ f1 f2 n, n ≤ f1 → n ≤ f2 → natDigitsRevFuel f1 n = natDigitsRevFuel f2 n := by
  intro f1
  induction f1 with
  | zero =>
    intro f2 n h1 _
    interval_cases n
    cases f2 <;> rfl
  | succ f ih =>
    intro f2 n h1 h2
    match n, f2 with
    | 0, 0 => rfl
    | 0, g + 1 => rfl
    | m + 1, 0 => omega
    | m + 1, g + 1 =>
      show _ :: natDigitsRevFuel f ((m + 1) / 10) = _ :: natDigitsRevFuel g ((m + 1) / 10)
      have hlt : (m + 1) / 10 < m + 1 := Nat.div_lt_self (Nat.succ_pos m) (by decide)
      rw [ih g ((m + 1) / 10) (by omega) (by omega)]

theorem natDigitsRev_succ (n : Nat) :
    natDigitsRev (n + 1) = Char.ofNat (48 + (n + 1) % 10) :: natDigitsRev ((n + 1) / 10) := by
  show natDigitsRevFuel (n + 1) (n + 1) = _ :: natDigitsRevFuel ((n + 1) / 10) ((n + 1) / 10)
  have hlt : (n + 1) / 10 < n + 1 := Nat.div_lt_self (Nat.succ_pos n) (by decide)
  show _ :: natDigitsRevFuel n ((n + 1) / 10) = _
  rw [natDigitsRevFuel_congr n ((n + 1) / 10) ((n + 1) / 10) (by omega) (by omega)]

theorem hexDigitsRevFuel_congr :
    ∀ f1 f2 n, n ≤ f1 → n ≤ f2 → hexDigitsRevFuel f1 n = hexDigitsRevFuel f2 n := by
  intro f1
  induction f1 with
  | zero =>
    intro f2 n h1 _
    interval_cases n
    cases f2 <;> rfl
  | succ f ih =>
    intro f2 n h1 h2
    match n, f2 with
    | 0, 0 => rfl
    | 0, g + 1 => rfl
    | m + 1, 0 => omega
    | m + 1, g + 1 =>
      show _ :: hexDigitsRevFuel f ((m + 1) / 16) = _ :: hexDigitsRevFuel g ((m + 1) / 16)
      have hlt : (m + 1) / 16 < m + 1 := Nat.div_lt_self (Nat.succ_pos m) (by decide)
      rw [ih g ((m + 1) / 16) (by omega) (by omega)]

theorem hexDigitsRev_zero : hexDigitsRev 0 = [] := rfl

theorem hexDigitsRev_succ (n : Nat) :
    hexDigitsRev (n + 1) = hexDigitChar ((n + 1) % 16) :: hexDigitsRev ((n + 1) / 16) := by
  show hexDigitsRevFuel (n + 1) (n + 1) = _ :: hexDigitsRevFuel ((n + 1) / 16) ((n + 1) / 16)
  have hlt : (n + 1) / 16 < n + 1 := Nat.div_lt_self (Nat.succ_pos n) (by decide)
  show _ :: hexDigitsRevFuel n ((n + 1) / 16) = _
  rw [hexDigitsRevFuel_congr n ((n + 1) / 16) ((n + 1) / 16) (by omega) (by omega)]

theorem hexDigitVal_hexDigitChar {d : Nat} (h : d < 16) :
    hexDigitVal (hexDigitChar d) = some d := by
  interval_cases d <;> rfl

theorem parseHexAux_append (xs : List Char) (acc : Nat) (ys : List Char) :
    parseHexAux acc (xs ++ ys) =
      match parseHexAux acc xs with
      | none => none
      | some a => parseHexAux a ys := by
  induction xs generalizing acc with
  | nil => simp [parseHexAux]
  | cons c cs ih =>
    simp only [List.cons_append, parseHexAux]
    cases hexDigitVal c with
    | none => rfl
    | some d => exact ih (16 * acc + d)

theorem parseHexAux_hexDigitsRev (n : Nat) :
    ∀ acc, parseHexAux acc ((hexDigitsRev n).reverse) =
      some (acc * 16 ^ (hexDigitsRev n).length + n) := by
  induction n using Nat.strong_induction_on with
  | _ n ih =>
    intro acc
    match n with
    | 0 => simp [hexDigitsRev, natDigitsRevFuel, hexDigitsRevFuel, parseHexAux]
    | Nat.succ m =>
      rw [hexDigitsRev_succ]
      rw [List.reverse_cons, parseHexAux_append]
      rw [ih ((m + 1) / 16) (Nat.div_lt_self (Nat.succ_pos m) (by decide)) acc]
      simp only [parseHexAux, hexDigitVal_hexDigitChar (Nat.mod_lt _ (by decide))]
      have hdm : 16 * (acc * 16 ^ (hexDigitsRev ((m + 1) / 16)).length + (m + 1) / 16)
        + (m + 1) % 16
      = acc * 16 ^ ((hexDigitsRev ((m + 1) / 16)).length + 1)
        + (16 * ((m + 1) / 16) + (m + 1) % 16) := by ring
      rw [List.length_cons]
      congr 1
      rw [hdm, Nat.div_add_mod]

theorem hexDigitsRev_length_le (n w : Nat) (h : n < 16 ^ w) :
    (hexDigitsRev n).length ≤ w := by
  induction n using Nat.strong_induction_on generalizing w with
  | _ n ih =>
    match n with
    | 0 => simp [hexDigitsRev, hexDigitsRevFuel]
    | Nat.succ m =>
      rw [hexDigitsRev_succ]
      match w with
      | 0 => omega
      | Nat.succ w2 =>
        simp only [List.length_cons, Nat.succ_le_succ_iff]
        apply ih ((m + 1) / 16) (Nat.div_lt_self (Nat.succ_pos m) (by decide))
        have h16 : (0:Nat) < 16 := by decide
        rw [Nat.div_lt_iff_lt_mul h16]
        calc m + 1 < 16 ^ (w2 + 1) := h
          _ = 16 ^ w2 * 16 := by ring

theorem parseHexAux_zeros (k : Nat) (l : List Char) :
    parseHexAux 0 (List.replicate k '0' ++ l) = parseHexAux 0 l := by
  induction k with
  | zero => simp
  | succ k2 ih =>
    simp only [List.replicate_succ, List.cons_append, parseHexAux]
    have h0 : hexDigitVal '0' = some 0 := rfl
    rw [h0]
    simpa using ih

theorem hexRep_ne_nil (v : Nat) : hexRep v ≠ [] := by
  unfold hexRep
  split
  · simp
  · rename_i h
    match hv : v with
    | 0 => exact absurd rfl h
    | Nat.succ m =>
      rw [hexDigitsRev_succ]
      simp

theorem parseHexChars_hexRep (v : Nat) : parseHexChars (hexRep v) = some v := by
  unfold hexRep
  split
  · rename_i h; subst h; rfl
  · rename_i h
    have := parseHexAux_hexDigitsRev v 0
    simp only [Nat.zero_mul, Nat.zero_add] at this
    match hcase : (hexDigitsRev v).reverse with
    | [] =>
      exfalso
      match v, h with
      | Nat.succ m, _ => rw [hexDigitsRev_succ] at hcase; simp at hcase
    | c :: cs =>
      rw [hcase] at this
      simpa [parseHexChars] using this

theorem parseHexChars_padHex_hexRep (v w : Nat) :
    parseHexChars (padHex w (hexRep v)) = some v := by
  have hne : hexRep v ≠ [] := hexRep_ne_nil v
  match hcase : hexRep v with
  | [] => exact absurd hcase hne
  | c :: cs =>
    have hz := parseHexAux_zeros (w - (c :: cs).length) (c :: cs)
    have h3 := parseHexChars_hexRep v
    rw [hcase] at h3
    show parseHexChars (List.replicate (w - (c :: cs).length) '0' ++ c :: cs) = some v
    match hrep : List.replicate (w - (c :: cs).length) '0' with
    | [] => simpa using h3
    | z :: zs =>
      rw [hrep] at hz
      show parseHexAux 0 (z :: (zs ++ c :: cs)) = some v
      rw [show z :: (zs ++ c :: cs) = z :: zs ++ c :: cs from rfl, hz]
      exact h3

theorem padHex_length (w : Nat) (ds : List Char) :
    (padHex w ds).length = max w ds.length := by
  simp [padHex]
  omega

theorem hexRep_length_le (v w : Nat) (hv : v < 16 ^ w) (hw : 0 < w) :
    (hexRep v).length ≤ w := by
  unfold hexRep
  split
  · simpa using hw
  · rw [List.length_reverse]
    exact hexDigitsRev_length_le v w hv

theorem hexDigitsRev_mem (n : Nat) :
    ∀ c ∈ hexDigitsRev n, c ∈ String.data "0123456789ABCDEF" := by
  induction n using Nat.strong_induction_on with
  | _ n ih =>
    match n with
    | 0 => intro c hc; exact absurd hc (List.not_mem_nil c)
    | Nat.succ m =>
      intro c hc
      rw [hexDigitsRev_succ] at hc
      rcases List.mem_cons.mp hc with h | h
      · subst h
        have hlt : (m + 1) % 16 < 16 := Nat.mod_lt _ (by decide)
        revert hlt
        generalize (m + 1) % 16 = d
        intro hlt
        interval_cases d <;> decide
      · exact ih ((m + 1) / 16) (Nat.div_lt_self (Nat.succ_pos m) (by decide)) c h

theorem hexRep_mem (v : Nat) :
    ∀ c ∈ hexRep v, c ∈ String.data "0123456789ABCDEF" := by
  unfold hexRep
  split
  · intro c hc
    simp only [List.mem_singleton] at hc
    subst hc; decide
  · intro c hc
    rw [List.mem_reverse] at hc
    exact hexDigitsRev_mem v c hc

theorem padHex_mem (w : Nat) (ds : List Char)
    (h : ∀ c ∈ ds, c ∈ String.data "0123456789ABCDEF") :
    ∀ c ∈ padHex w ds, c ∈ String.data "0123456789ABCDEF" := by
  intro c hc
  rcases List.mem_append.mp hc with h1 | h1
  · have := List.eq_of_mem_replicate h1
    subst this; decide
  · exact h c h1

theorem parseBinAux_lt (l : List Char) :
    ∀ acc n, parseBinAux acc l = some n → n < (acc + 1) * 2 ^ l.length := by
  induction l with
  | nil =>
    intro acc n h
    simp only [parseBinAux, Option.some.injEq] at h
    subst h
    simpa using Nat.lt_succ_self acc
  | cons c cs ih =>
    intro acc n h
    simp only [parseBinAux] at h
    split at h
    · have := ih (2 * acc) n h
      calc n < (2 * acc + 1) * 2 ^ cs.length := this
        _ ≤ (2 * acc + 2) * 2 ^ cs.length := by
            exact Nat.mul_le_mul_right _ (by omega)
        _ = (acc + 1) * 2 ^ (c :: cs).length := by
            simp [List.length_cons, pow_succ]; ring
    · split at h
      · have := ih (2 * acc + 1) n h
        calc n < (2 * acc + 1 + 1) * 2 ^ cs.length := this
          _ = (acc + 1) * 2 ^ (c :: cs).length := by
              simp [List.length_cons, pow_succ]; ring
      · exact absurd h (by simp)

theorem pyParseBin_lt (s : String) (v : Nat) (h : pyParseBin s = some v) :
    v < 2 ^ s.length := by
  unfold pyParseBin at h
  match hs : s.data with
  | [] => rw [hs] at h; exact absurd h (by simp)
  | c :: cs =>
    rw [hs] at h
    have := parseBinAux_lt (c :: cs) 0 v h
    have hlen : s.length = (c :: cs).length := by
      show s.data.length = _
      rw [hs]
    rw [hlen]
    simpa using this

theorem parseBinAux_isSome (l : List Char) :
    ∀ acc, (∀ c ∈ l, c = '0' ∨ c = '1') → ∃ n, parseBinAux acc l = some n := by
  induction l with
  | nil => intro acc _; exact ⟨acc, rfl⟩
  | cons c cs ih =>
    intro acc h
    rcases h c (List.mem_cons_self c cs) with h0 | h0 <;> subst h0
    · simpa [parseBinAux] using ih (2 * acc) (fun d hd => h d (List.mem_cons_of_mem _ hd))
    · simpa [parseBinAux] using
        ih (2 * acc + 1) (fun d hd => h d (List.mem_cons_of_mem _ hd))

theorem data_ne_nil_of_ne_empty (s : String) (h : s ≠ "") : s.data ≠ [] := by
  intro hd
  apply h
  cases s with
  | mk l => cases hd; rfl

theorem bits_to_hex_eq (s : String) (v : Nat) (h1 : s ≠ "")
    (hv : pyParseBin s = some v) :
    PDParser.bits_to_hex s =
      "0x" ++ String.mk (padHex ((s.length + 3) / 4) (hexRep v)) := by
  have hne : s.isEmpty = false := by
    rw [Bool.eq_false_iff]
    intro htrue
    exact h1 ((String.isEmpty_iff s).mp htrue)
  unfold PDParser.bits_to_hex
  rw [hne, hv]
  simp

/-- C4: for every nonempty binary bit string, the hex rendering parses back
to the same integer as int(b, 2), starts with 0x, has total width exactly
2 + ceil(len(b)/4) (so exactly ceil(len(b)/4) hex digits), consists of
uppercase hex digits after the prefix, and in particular "000101" renders as
"0x05". -/
theorem c4_bits_to_hex_roundtrip (s : String) (h1 : s ≠ "")
    (h2 : ∀ c ∈ s.data, c = '0' ∨ c = '1') :
    ∃ v, pyParseBin s = some v ∧
      parseHexChars ((PDParser.bits_to_hex s).data.drop 2) = some v ∧
      (PDParser.bits_to_hex s).data.take 2 = ['0', 'x'] ∧
      (PDParser.bits_to_hex s).length = 2 + (s.length + 3) / 4 ∧
      (∀ c ∈ (PDParser.bits_to_hex s).data.drop 2,
        c ∈ String.data "0123456789ABCDEF") ∧
      PDParser.bits_to_hex "000101" = "0x05" := by
  have hd : s.data ≠ [] := data_ne_nil_of_ne_empty s h1
  have hsome : ∃ v, pyParseBin s = some v := by
    unfold pyParseBin
    match hs : s.data with
    | [] => exact absurd hs hd
    | c :: cs =>
      apply parseBinAux_isSome
      intro d hdm
      exact h2 d (by rw [hs]; exact hdm)
  obtain ⟨v, hv⟩ := hsome
  refine ⟨v, hv, ?_⟩
  set w := (s.length + 3) / 4 with hw
  have heq := bits_to_hex_eq s v h1 hv
  have hdata : (PDParser.bits_to_hex s).data = '0' :: 'x' :: padHex w (hexRep v) := by
    rw [heq, String.data_append]
    rfl
  have hlen1 : 1 ≤ s.length := by
    have : s.data.length ≠ 0 := fun hc => hd (List.length_eq_zero.mp hc)
    show 1 ≤ s.data.length
    omega
  have hwpos : 0 < w := by rw [hw]; omega
  have hvlt : v < 16 ^ w := by
    have hb := pyParseBin_lt s v hv
    have hle : s.length ≤ 4 * w := by rw [hw]; omega
    calc v < 2 ^ s.length := hb
      _ ≤ 2 ^ (4 * w) := Nat.pow_le_pow_right (by decide) hle
      _ = 16 ^ w := by rw [pow_mul]; norm_num
  have hreplen : (hexRep v).length ≤ w := hexRep_length_le v w hvlt hwpos
  refine ⟨?_, ?_, ?_, ?_, ?_⟩
  · rw [hdata]
    simpa using parseHexChars_padHex_hexRep v w
  · rw [hdata]; rfl
  · show (PDParser.bits_to_hex s).data.length = 2 + w
    rw [hdata]
    simp only [List.length_cons, padHex_length]
    omega
  · rw [hdata]
    intro c hc
    simp only [List.drop_succ_cons, List.drop_zero] at hc
    exact padHex_mem w (hexRep v) (hexRep_mem v) c hc
  · decide

/-- Witness for C4 at the spec's own scenario input. -/
theorem c4_bits_to_hex_roundtrip_witness :
    ∃ v, pyParseBin "000101" = some v ∧
      parseHexChars ((PDParser.bits_to_hex "000101").data.drop 2) = some v ∧
      (PDParser.bits_to_hex "000101").data.take 2 = ['0', 'x'] ∧
      (PDParser.bits_to_hex "000101").length = 2 + ("000101".length + 3) / 4 ∧
      (∀ c ∈ (PDParser.bits_to_hex "000101").data.drop 2,
        c ∈ String.data "0123456789ABCDEF") ∧
      PDParser.bits_to_hex "000101" = "0x05" :=
  c4_bits_to_hex_roundtrip "000101" (by decide) (by decide)

/-! ## C10: totality of the decoding entry points -/

/-- C10: the public decoding entry points are total functions of the model:
is_pdo_packet/is_rdo_packet are False for None and when the underlying
external check raises; parse_pdo returns a list, empty when the payload has
no data or the data objects cannot be read; the bit-to-hex renderer returns
a string, empty for an empty or unparseable bit string. -/
theorem c10_decoder_totality :
    is_pdo_packet none = false ∧
    (∀ pkg : Py, pkg.isPdoAttr = none → is_pdo_packet (some pkg) = false) ∧
    is_rdo_packet none = false ∧
    (∀ pkg : Py, pkg.isRdoAttr = none → is_rdo_packet (some pkg) = false) ∧
    (∀ p : PdPayload, p.data = none → PDParser.parse_pdo p = []) ∧
    (∀ p : PdPayload, ∀ pkg : Py, p.data = some pkg →
      PDParser.readPdoObjects pkg = none → PDParser.parse_pdo p = []) ∧
    PDParser.bits_to_hex "" = "" ∧
    (∀ s : String, pyParseBin s = none → PDParser.bits_to_hex s = "") := by
  refine ⟨rfl, ?_, rfl, ?_, ?_, ?_, rfl, ?_⟩
  · intro pkg h
    simp [is_pdo_packet, h]
  · intro pkg h
    simp [is_rdo_packet, h]
  · intro p h
    simp [PDParser.parse_pdo, h]
  · intro p pkg hdata hread
    simp only [PDParser.parse_pdo, hdata, hread]
    cases pyTruthy pkg <;> rfl
  · intro s h
    unfold PDParser.bits_to_hex
    rw [h]
    cases s.isEmpty <;> rfl

/-- Witness for C10 at concrete inputs: a bare string packet (on which every
underlying check raises), an empty payload, and an unparseable bit string. -/
theorem c10_decoder_totality_witness :
    is_pdo_packet (some (Py.vstr "x")) = false ∧
    is_rdo_packet (some (Py.vstr "x")) = false ∧
    PDParser.parse_pdo { data := none } = [] ∧
    PDParser.parse_pdo { data := some (Py.vstr "x") } = [] ∧
    PDParser.bits_to_hex "2Z" = "" :=
  ⟨c10_decoder_totality.2.1 (Py.vstr "x") rfl,
   c10_decoder_totality.2.2.2.1 (Py.vstr "x") rfl,
   c10_decoder_totality.2.2.2.2.1 { data := none } rfl,
   c10_decoder_totality.2.2.2.2.2.1 { data := some (Py.vstr "x") } (Py.vstr "x") rfl rfl,
   c10_decoder_totality.2.2.2.2.2.2.2 "2Z" rfl⟩

/-! ## C5: parse_pdo entry counts and positions -/

theorem pdoLoop_length (objs : List Py) :
    ∀ i, (PDParser.pdoLoop i objs).length =
      objs.length - (objs.filter PDParser.isEmptyPdo).length := by
  induction objs with
  | nil => intro i; rfl
  | cons obj rest ih =>
    intro i
    have hle : (rest.filter PDParser.isEmptyPdo).length ≤ rest.length :=
      List.length_filter_le _ _
    by_cases h : PDParser.isEmptyPdo obj
    · simp only [PDParser.pdoLoop, if_pos h, List.filter_cons_of_pos h,
        List.length_cons]
      rw [ih (i + 1)]
      omega
    · simp only [PDParser.pdoLoop, if_neg h, List.filter_cons_of_neg h,
        List.length_cons]
      rw [ih (i + 1)]
      omega

theorem pdoLoop_indices (objs : List Py) :
    ∀ i, (PDParser.pdoLoop i objs).map PDParser.PdoEntry.index =
      ((List.enumFrom i objs).filter
        (fun p => !PDParser.isEmptyPdo p.2)).map (fun p => natDec (p.1 + 1)) := by
  induction objs with
  | nil => intro i; rfl
  | cons obj rest ih =>
    intro i
    by_cases h : PDParser.isEmptyPdo obj
    · simp only [PDParser.pdoLoop, if_pos h, List.enumFrom_cons]
      rw [List.filter_cons_of_neg (by simpa using h)]
      exact ih (i + 1)
    · simp only [PDParser.pdoLoop, if_neg h, List.enumFrom_cons]
      rw [List.filter_cons_of_pos (by simpa using h)]
      simp only [List.map_cons]
      rw [ih (i + 1)]

theorem parse_pdo_mkPdoPayload (objs : List Py) (h : objs ≠ []) :
    PDParser.parse_pdo (mkPdoPayload objs) = PDParser.pdoLoop 0 objs := by
  have hread : PDParser.readPdoObjects
      (Py.node none
        [(PyKey.kstr "Message Header",
          Py.node none
            [(PyKey.kstr "Extended",
              Py.node none [] (some (some (Py.vbool false))) none none none none none)]
            (some (some (Py.vstr "hdr"))) none none none none none),
         (PyKey.knat 3,
          Py.node none [] (some (some (Py.vlist objs))) none none none none none)]
        none none none none none none) = some (Py.vlist objs) := rfl
  simp only [PDParser.parse_pdo, mkPdoPayload, hread, pyTruthy, Bool.not_true,
    Bool.false_eq_true, if_false]
  rw [if_neg (by simpa using h)]

/-- C5 (amended): for every nonempty object list handed to parse_pdo through
a minimal matching packet, the emitted entry count is at most the object
count and equals it minus the placeholder count, and the emitted positions
are exactly the 1-based source positions of the non-placeholder objects in
source order (hence strictly increasing, but contiguous from 1 only when no
placeholder precedes an emitted entry). -/
theorem c5_parse_pdo_positions (objs : List Py) (h : objs ≠ []) :
    PDParser.parse_pdo (mkPdoPayload objs) = PDParser.pdoLoop 0 objs ∧
    (PDParser.pdoLoop 0 objs).length ≤ objs.length ∧
    (PDParser.pdoLoop 0 objs).length =
      objs.length - (objs.filter PDParser.isEmptyPdo).length ∧
    (PDParser.pdoLoop 0 objs).map PDParser.PdoEntry.index =
      ((List.enumFrom 0 objs).filter
        (fun p => !PDParser.isEmptyPdo p.2)).map (fun p => natDec (p.1 + 1)) := by
  refine ⟨parse_pdo_mkPdoPayload objs h, ?_, pdoLoop_length objs 0,
    pdoLoop_indices objs 0⟩
  rw [pdoLoop_length objs 0]
  omega

/-- Witness for C5 (amended) at a two-object list. -/
theorem c5_parse_pdo_positions_witness :
    PDParser.parse_pdo (mkPdoPayload [samplePdoObj, emptyPdoObj]) =
      PDParser.pdoLoop 0 [samplePdoObj, emptyPdoObj] ∧
    (PDParser.pdoLoop 0 [samplePdoObj, emptyPdoObj]).length ≤ 2 ∧
    (PDParser.pdoLoop 0 [samplePdoObj, emptyPdoObj]).length =
      2 - ([samplePdoObj, emptyPdoObj].filter PDParser.isEmptyPdo).length ∧
    (PDParser.pdoLoop 0 [samplePdoObj, emptyPdoObj]).map PDParser.PdoEntry.index =
      ((List.enumFrom 0 [samplePdoObj, emptyPdoObj]).filter
        (fun p => !PDParser.isEmptyPdo p.2)).map (fun p => natDec (p.1 + 1)) :=
  c5_parse_pdo_positions [samplePdoObj, emptyPdoObj] (by simp)

/-- Counterexample to C5 as stated: with a placeholder first and a real PDO
second, exactly one entry is emitted and its position is "2", not the "1"
that 1-based contiguity over emitted entries would require. -/
theorem c5_counterexample :
    (PDParser.parse_pdo (mkPdoPayload [emptyPdoObj, samplePdoObj])).length = 1 ∧
    (PDParser.parse_pdo (mkPdoPayload [emptyPdoObj, samplePdoObj])).map
      PDParser.PdoEntry.index = ["2"] ∧
    (PDParser.parse_pdo (mkPdoPayload [emptyPdoObj, samplePdoObj])).map
      PDParser.PdoEntry.index ≠
      (List.range (PDParser.parse_pdo
        (mkPdoPayload [emptyPdoObj, samplePdoObj])).length).map
        (fun i => natDec (i + 1)) := by
  refine ⟨?_, ?_, ?_⟩ <;> decide

/-! ## C9: parse_rdo defaults and position text -/

/-- C9 (amended): parse_rdo never raises (it is a total function of the
model) and returns summary "Invalid RDO" whenever the payload has no data,
slot 3 cannot be read, or the object list is missing/empty/non-list; on a
nonempty object list it operates on the first object only; quick-summary
failure, an empty result, or the "Not a RDO" marker default the summary; a
successful nonempty quick summary is kept; the optional object position is
surfaced verbatim as "Position: {value}" free text, with no 0-based to
1-based conversion. -/
theorem c9_parse_rdo_behaviour :
    PDParser.parse_rdo { data := none } =
      { summary := "Invalid RDO", raw := none, details := none } ∧
    (∀ p : PdPayload, ∀ pkg : Py, p.data = some pkg →
      (pkg.getItem (PyKey.knat 3)).bind Py.valueCall = none →
      PDParser.parse_rdo p =
        { summary := "Invalid RDO", raw := none, details := none }) ∧
    (∀ p : PdPayload, ∀ pkg target : Py, ∀ rest : List Py, p.data = some pkg →
      (pkg.getItem (PyKey.knat 3)).bind Py.valueCall =
        some (Py.vlist (target :: rest)) →
      PDParser.parse_rdo p = PDParser.parseRdoTarget target) ∧
    (∀ target : Py, target.quickRdoAttr = none →
      (PDParser.parseRdoTarget target).summary = "Invalid RDO") ∧
    (∀ target : Py, ∀ s : String, target.quickRdoAttr = some (Py.vstr s) →
      s = "" ∨ s = "Not a RDO" →
      (PDParser.parseRdoTarget target).summary = "Invalid RDO") ∧
    (∀ target : Py, ∀ s : String, target.quickRdoAttr = some (Py.vstr s) →
      s ≠ "" → s ≠ "Not a RDO" →
      (PDParser.parseRdoTarget target).summary = s) ∧
    (∀ target : Py, (PDParser.parseRdoTarget target).details =
      ((target.getItem (PyKey.kstr "Object Position")).bind Py.valueCall).map
        (fun v => "Position: " ++ pyStr v)) := by
  refine ⟨rfl, ?_, ?_, ?_, ?_, ?_, ?_⟩
  · intro p pkg hdata hread
    simp [PDParser.parse_rdo, hdata, hread]
  · intro p pkg target rest hdata hread
    simp [PDParser.parse_rdo, hdata, hread]
  · intro target h
    simp [PDParser.parseRdoTarget, PDParser.safe_quick_rdo, h]
  · intro target s h hcase
    have hq : PDParser.safe_quick_rdo target = some s := by
      simp [PDParser.safe_quick_rdo, h, pyStr]
    simp only [PDParser.parseRdoTarget, hq]
    show (if s = "" ∨ s = "Not a RDO" then "Invalid RDO" else s) = "Invalid RDO"
    exact if_pos hcase
  · intro target s h hne1 hne2
    have hq : PDParser.safe_quick_rdo target = some s := by
      simp [PDParser.safe_quick_rdo, h, pyStr]
    simp only [PDParser.parseRdoTarget, hq]
    show (if s = "" ∨ s = "Not a RDO" then "Invalid RDO" else s) = s
    exact if_neg (fun hc => hc.elim hne1 hne2)
  · intro target
    rfl

/-- Witness for C9 (amended) at a concrete RDO packet with Object Position
value 2 and quick summary "5V 3A". -/
theorem c9_parse_rdo_behaviour_witness :
    PDParser.parse_rdo (mkRdoPayload [rdoTargetObj]) =
      PDParser.parseRdoTarget rdoTargetObj ∧
    (PDParser.parseRdoTarget rdoTargetObj).summary = "5V 3A" ∧
    (PDParser.parseRdoTarget rdoTargetObj).details = some ("Position: " ++ intDec 2) ∧
    PDParser.parse_rdo { data := none } =
      { summary := "Invalid RDO", raw := none, details := none } :=
  ⟨c9_parse_rdo_behaviour.2.2.1 (mkRdoPayload [rdoTargetObj]) _ rdoTargetObj [] rfl rfl,
   c9_parse_rdo_behaviour.2.2.2.2.2.1 rdoTargetObj "5V 3A" rfl (by decide) (by decide),
   by rw [c9_parse_rdo_behaviour.2.2.2.2.2.2 rdoTargetObj]; decide,
   c9_parse_rdo_behaviour.1⟩

/-- Counterexample to C9 as stated: the Object Position field value 2 is
surfaced as "Position: 2", not as the "Position: 3" that a 0-based to
1-based conversion would produce. -/
theorem c9_counterexample :
    (PDParser.parse_rdo (mkRdoPayload [rdoTargetObj])).details =
      some ("Position: " ++ intDec 2) ∧
    some ("Position: " ++ intDec 2) ≠ some ("Position: " ++ intDec (2 + 1)) := by
  refine ⟨?_, ?_⟩ <;> decide

/-! ## C2: worker pause gating and measurement rate limit -/

/-- C2: in every worker iteration, while the pause flag is set no enqueued
payload carries a packet or measurements and a decoded packet produces no
enqueue at all (PD packets are dropped silently); while running, a
measurement payload is enqueued only when at least 0.2 s has elapsed since
the last emission, whereas a PD packet is enqueued immediately with no rate
condition; the last-sent timestamp either stays or is set to the check time
exactly on measurement emission, and it never moves backwards. -/
theorem c2_worker_rate_limit (pauseFlag : Nat) (tp tc lastTs : ℚ)
    (r : ReadOutcome) :
    (pauseFlag = 1 → ∀ q ∈ (workerStep pauseFlag tp tc lastTs r).1,
      q.data = none ∧ q.measurements = none) ∧
    (pauseFlag = 1 → ∀ ts : String, ∀ pkg : WPacket,
      r = ReadOutcome.ok ts (some pkg) →
      (workerStep pauseFlag tp tc lastTs r).1 = []) ∧
    (pauseFlag = 0 →
      (∃ q ∈ (workerStep pauseFlag tp tc lastTs r).1, q.measurements.isSome) →
      (1 : ℚ)/5 ≤ tc - lastTs) ∧
    (pauseFlag = 0 → ∀ ts : String, ∀ pkg : WPacket,
      r = ReadOutcome.ok ts (some pkg) → isPdPacket pkg →
      (workerStep pauseFlag tp tc lastTs r).1 =
        [{ timestamp := some ts, timeSec := some tp, data := some pkg,
           measurements := none, error := none }]) ∧
    ((workerStep pauseFlag tp tc lastTs r).2.1 = lastTs ∨
      ((workerStep pauseFlag tp tc lastTs r).2.1 = tc ∧ pauseFlag = 0 ∧
        (1 : ℚ)/5 ≤ tc - lastTs ∧
        ∃ q ∈ (workerStep pauseFlag tp tc lastTs r).1, q.measurements.isSome)) ∧
    (lastTs ≤ tc → lastTs ≤ (workerStep pauseFlag tp tc lastTs r).2.1) := by
  refine ⟨?_, ?_, ?_, ?_, ?_, ?_⟩
  · intro hp q hq
    subst hp
    cases r with
    | openFailed msg =>
      simp only [workerStep, List.mem_singleton] at hq
      subst hq; exact ⟨rfl, rfl⟩
    | readError =>
      simp only [workerStep, List.mem_singleton] at hq
      subst hq; exact ⟨rfl, rfl⟩
    | otherError => simp [workerStep] at hq
    | noUnpack => simp [workerStep] at hq
    | ok ts opkg =>
      cases opkg with
      | none => simp [workerStep] at hq
      | some pkg =>
        by_cases hpd : isPdPacket pkg
        · simp [workerStep, hpd] at hq
        · simp [workerStep, hpd] at hq
  · intro hp ts pkg hr
    subst hp; subst hr
    by_cases hpd : isPdPacket pkg
    · simp [workerStep, hpd]
    · simp [workerStep, hpd]
  · intro hp hex
    subst hp
    obtain ⟨q, hq, hmeas⟩ := hex
    cases r with
    | openFailed msg =>
      simp only [workerStep, List.mem_singleton] at hq
      subst hq; simp at hmeas
    | readError =>
      simp only [workerStep, List.mem_singleton] at hq
      subst hq; simp at hmeas
    | otherError => simp [workerStep] at hq
    | noUnpack => simp [workerStep] at hq
    | ok ts opkg =>
      cases opkg with
      | none => simp [workerStep] at hq
      | some pkg =>
        by_cases hpd : isPdPacket pkg
        · simp only [workerStep, hpd, if_true] at hq
          simp only [if_neg (by simp : ¬((0 : Nat) == 1) = true)] at hq
          simp only [List.mem_singleton] at hq
          subst hq; simp at hmeas
        · by_cases hm : measNonempty (extractMeasurements pkg)
          · by_cases hcond : (1 : ℚ)/5 ≤ tc - lastTs
            · exact hcond
            · rw [one_div] at hcond
              simp [workerStep, hpd, hm, hcond] at hq
          · simp [workerStep, hpd, hm] at hq
  · intro hp ts pkg hr hpd
    subst hp; subst hr
    simp [workerStep, hpd]
  · cases r with
    | openFailed msg => left; rfl
    | readError => left; rfl
    | otherError => left; rfl
    | noUnpack => left; rfl
    | ok ts opkg =>
      cases opkg with
      | none => left; rfl
      | some pkg =>
        by_cases hpd : isPdPacket pkg
        · by_cases hp : pauseFlag == 1 <;> simp [workerStep, hpd, hp]
        · by_cases hm : measNonempty (extractMeasurements pkg)
          · by_cases hp : pauseFlag = 0
            · by_cases hcond : (1 : ℚ)/5 ≤ tc - lastTs
              · have hcond5 : (5 : ℚ)⁻¹ ≤ tc - lastTs := by
                  rw [← one_div]; exact hcond
                right
                subst hp
                have hstep : workerStep 0 tp tc lastTs (ReadOutcome.ok ts (some pkg)) =
                    ([{ timestamp := some ts, timeSec := some tp, data := some pkg,
                        measurements := some (extractMeasurements pkg), error := none }],
                     tc, false) := by
                  simp [workerStep, hpd, hm, hcond5]
                rw [hstep]
                exact ⟨rfl, rfl, hcond,
                  ⟨_, List.mem_singleton_self _, rfl⟩⟩
              · left
                rw [one_div] at hcond
                simp [workerStep, hpd, hm, hcond]
            · left
              have hp2 : (pauseFlag == 0) = false := by
                simpa using hp
              simp [workerStep, hpd, hm, hp2]
          · left; simp [workerStep, hpd, hm]
  · intro hle
    cases r with
    | openFailed msg => exact le_of_eq rfl |>.trans (le_refl _)
    | readError => simp [workerStep]
    | otherError => simp [workerStep]
    | noUnpack => simp [workerStep]
    | ok ts opkg =>
      cases opkg with
      | none => simp [workerStep]
      | some pkg =>
        by_cases hpd : isPdPacket pkg
        · by_cases hp : pauseFlag == 1 <;> simp [workerStep, hpd, hp]
        · by_cases hm : measNonempty (extractMeasurements pkg)
          · by_cases hp : (pauseFlag == 0) = true
            · by_cases hcond : (1 : ℚ)/5 ≤ tc - lastTs
              · have hcond5 : (5 : ℚ)⁻¹ ≤ tc - lastTs := by
                  rw [← one_div]; exact hcond
                simp only [workerStep, hpd, hm, hp]
                simp [hcond5, hle]
              · rw [one_div] at hcond
                simp [workerStep, hpd, hm, hp, hcond]
            · simp [workerStep, hpd, hm, hp]
          · simp [workerStep, hpd, hm]

/-- Witness for C2: with the pause flag clear, 0.2 s elapsed and a PD
packet, the payload is enqueued immediately; a measurement packet discharges
the rate-limit conjunct; with the flag set the same PD packet produces no
enqueue. -/
theorem c2_worker_rate_limit_witness :
    ((1 : ℚ)/5 ≤ 1 - 0) ∧
    (workerStep 0 0 1 0 (ReadOutcome.ok "t" (some ⟨some "pd", none, none⟩))).1 =
      [{ timestamp := some "t", timeSec := some 0,
         data := some ⟨some "pd", none, none⟩,
         measurements := none, error := none }] ∧
    (workerStep 1 0 1 0 (ReadOutcome.ok "t" (some ⟨some "pd", none, none⟩))).1 = [] :=
  ⟨(c2_worker_rate_limit 0 0 1 0
      (ReadOutcome.ok "t" (some ⟨some "m", some 1, none⟩))).2.2.1 rfl
      ⟨{ timestamp := some "t", timeSec := some 0,
         data := some ⟨some "m", some 1, none⟩,
         measurements := some ⟨none, some 1, none⟩, error := none },
        by
          have hm : extractMeasurements ⟨some "m", some 1, none⟩ =
              ⟨none, some 1, none⟩ := by
            simp [extractMeasurements, abs_one]
          have hcond : ((5 : ℚ)⁻¹ ≤ 1) := by norm_num
          simp [workerStep, isPdPacket, measNonempty, hm, hcond],
        by decide⟩,
   (c2_worker_rate_limit 0 0 1 0
      (ReadOutcome.ok "t" (some ⟨some "pd", none, none⟩))).2.2.2.1 rfl "t"
      ⟨some "pd", none, none⟩ rfl (by decide),
   (c2_worker_rate_limit 1 0 1 0
      (ReadOutcome.ok "t" (some ⟨some "pd", none, none⟩))).2.1 rfl "t"
      ⟨some "pd", none, none⟩ rfl⟩

/-! ## C7: payload shape on the transport queue -/

/-- C7 (amended): every payload the worker enqueues satisfies: an error
payload carries neither packet nor measurements; a non-error payload always
carries the packet; a measurement payload is never an error payload (it is
distinguishable by the presence of the measurements field).  Measurement
payloads also retain the packet, so packet and measurements are not mutually
exclusive. -/
theorem c7_payload_shape (pauseFlag : Nat) (tp tc lastTs : ℚ) (r : ReadOutcome) :
    ∀ q ∈ (workerStep pauseFlag tp tc lastTs r).1,
      (q.error.isSome → q.data = none ∧ q.measurements = none) ∧
      (q.error = none → q.data.isSome) ∧
      (q.measurements.isSome → q.error = none) := by
  intro q hq
  cases r with
  | openFailed msg =>
    simp only [workerStep, List.mem_singleton] at hq
    subst hq
    exact ⟨fun _ => ⟨rfl, rfl⟩, fun h => by simp at h, fun h => by simp at h⟩
  | readError =>
    simp only [workerStep, List.mem_singleton] at hq
    subst hq
    exact ⟨fun _ => ⟨rfl, rfl⟩, fun h => by simp at h, fun h => by simp at h⟩
  | otherError => simp [workerStep] at hq
  | noUnpack => simp [workerStep] at hq
  | ok ts opkg =>
    cases opkg with
    | none => simp [workerStep] at hq
    | some pkg =>
      by_cases hpd : isPdPacket pkg
      · by_cases hp : (pauseFlag == 1) = true
        · simp [workerStep, hpd, hp] at hq
        · simp only [workerStep, hpd, if_true, Bool.not_eq_true] at hq
          rw [if_neg (by simp_all)] at hq
          simp only [List.mem_singleton] at hq
          subst hq
          exact ⟨fun h => by simp at h, fun _ => rfl, fun h => by simp at h⟩
      · by_cases hm : measNonempty (extractMeasurements pkg)
        · by_cases hcond : (pauseFlag == 0) = true ∧ (5 : ℚ)⁻¹ ≤ tc - lastTs
          · simp only [workerStep, hpd, hm] at hq
            rw [if_neg (by simp [hpd])] at hq
            rw [if_pos (by simp [hm])] at hq
            rw [if_pos (by simp [hcond.1, hcond.2, one_div])] at hq
            simp only [List.mem_singleton] at hq
            subst hq
            exact ⟨fun h => by simp at h, fun _ => rfl, fun _ => rfl⟩
          · simp only [workerStep, hpd, hm] at hq
            rw [if_neg (by simp [hpd])] at hq
            rw [if_pos (by simp [hm])] at hq
            rw [if_neg (by
              intro hc
              apply hcond
              simp only [Bool.and_eq_true, decide_eq_true_eq, one_div] at hc
              exact hc)] at hq
            simp at hq
        · simp [workerStep, hpd, hm] at hq

/-- Witness for C7 (amended) at the disconnect error payload. -/
theorem c7_payload_shape_witness :
    ({ timestamp := none, timeSec := none, data := none, measurements := none,
       error := some "device_disconnected" } : QPayload).data = none ∧
    ({ timestamp := none, timeSec := none, data := none, measurements := none,
       error := some "device_disconnected" } : QPayload).measurements = none :=
  (c7_payload_shape 0 0 1 0 ReadOutcome.readError
    { timestamp := none, timeSec := none, data := none, measurements := none,
      error := some "device_disconnected" } (by decide)).1 (by decide)

/-- Counterexample to C7 as stated: a running-state measurement enqueue
carries both the packet and the measurements, so it is false that exactly
one of packet/measurements/error carries data. -/
theorem c7_counterexample :
    ∃ q ∈ (workerStep 0 0 1 0
      (ReadOutcome.ok "t" (some ⟨some "m", some 1, none⟩))).1,
      q.data.isSome = true ∧ q.measurements.isSome = true := by
  refine ⟨{ timestamp := some "t", timeSec := some 0,
            data := some ⟨some "m", some 1, none⟩,
            measurements := some ⟨none, some 1, none⟩, error := none }, ?_, by decide⟩
  have hm : extractMeasurements ⟨some "m", some 1, none⟩ = ⟨none, some 1, none⟩ := by
    simp [extractMeasurements, abs_one]
  have hcond : ((5 : ℚ)⁻¹ ≤ 1) := by norm_num
  simp [workerStep, isPdPacket, measNonempty, hm, hcond]

/-! ## C1: buffer caps, suffix structure and import -/

theorem batchApply_raw {α : Type} (limit : Nat) (raw visible pending : List α) :
    (EasyPD.batchApply limit raw visible pending).1 = raw ++ pending := by
  unfold EasyPD.batchApply
  by_cases h : pending.isEmpty
  · rw [if_pos h, List.isEmpty_iff.mp h, List.append_nil]
  · rw [if_neg h]

theorem isSuffix_append_right {α : Type} {l1 l2 : List α} (t : List α)
    (h : l1 <:+ l2) : l1 ++ t <:+ l2 ++ t := by
  obtain ⟨s, rfl⟩ := h
  exact ⟨s, by simp⟩

theorem batchApply_visible_cases {α : Type} (limit : Nat)
    (raw visible pending : List α) :
    (EasyPD.batchApply limit raw visible pending).2 = visible ∨
    ∃ k, (EasyPD.batchApply limit raw visible pending).2 = visible.drop k ++ pending := by
  unfold EasyPD.batchApply
  by_cases h : pending.isEmpty
  · left; rw [if_pos h]
  · right
    rw [if_neg h]
    by_cases h2 : limit ≤ visible.length
    · rw [if_pos h2]
      by_cases h3 : 0 < visible.length + pending.length - limit
      · exact ⟨visible.length + pending.length - limit, by rw [if_pos h3]⟩
      · exact ⟨0, by rw [if_neg h3, List.drop_zero]⟩
    · exact ⟨0, by rw [if_neg h2, List.drop_zero]⟩

theorem batchApply_suffix {α : Type} (limit : Nat) (raw visible pending : List α)
    (h : visible <:+ raw) :
    (EasyPD.batchApply limit raw visible pending).2 <:+
      (EasyPD.batchApply limit raw visible pending).1 := by
  unfold EasyPD.batchApply
  by_cases hp : pending.isEmpty
  · rw [if_pos hp]
    exact h
  · rw [if_neg hp]
    dsimp only
    apply isSuffix_append_right
    by_cases h2 : limit ≤ visible.length
    · rw [if_pos h2]
      by_cases h3 : 0 < visible.length + pending.length - limit
      · rw [if_pos h3]
        exact (List.drop_suffix _ _).trans h
      · rw [if_neg h3]; exact h
    · rw [if_neg h2]; exact h

theorem batchApply_cap_restore {α : Type} (limit : Nat) (raw visible pending : List α)
    (h2 : limit ≤ visible.length) (hp : pending ≠ [])
    (hlen : pending.length ≤ limit) :
    (EasyPD.batchApply limit raw visible pending).2.length = limit := by
  unfold EasyPD.batchApply
  rw [if_neg (by simpa using hp)]
  dsimp only
  rw [if_pos h2]
  have hplen : 1 ≤ pending.length := by
    cases pending with
    | nil => exact absurd rfl hp
    | cons a l => simp
  rw [if_pos (by omega)]
  simp only [List.length_append, List.length_drop]
  omega

theorem batchApply_under_cap {α : Type} (limit : Nat) (raw visible pending : List α)
    (h : visible.length + pending.length ≤ limit) :
    (EasyPD.batchApply limit raw visible pending).2.length ≤ limit := by
  unfold EasyPD.batchApply
  by_cases hp : pending.isEmpty
  · rw [if_pos hp]
    dsimp only
    omega
  · rw [if_neg hp]
    dsimp only
    have hplen : 1 ≤ pending.length := by
      cases pending with
      | nil => simp at hp
      | cons a l => simp
    rw [if_neg (by omega)]
    simp only [List.length_append]
    omega

theorem importRow_cases (st : EasyPD.ImpState) (row : List String) :
    EasyPD.importRow st row = st ∨
    (∃ r, EasyPD.importRow st row = EasyPD.addProt st r) ∨
    (∃ m, EasyPD.importRow st row = EasyPD.addMeas st m) := by
  unfold EasyPD.importRow
  by_cases h1 : row.length < 5
  · left; rw [if_pos h1]
  · rw [if_neg h1]
    cases hi : pyParseInt (row.getD 0 "") with
    | none => left; rfl
    | some index =>
      cases hrt : pyParseFloat (row.getD 2 "") with
      | none => left; rfl
      | some rt =>
        dsimp only
        by_cases h2 : 8 < row.length ∧ ¬(row.getD 6 "" = "") ∧
            ¬(row.getD 7 "" = "") ∧ ¬(row.getD 8 "" = "")
        · rw [if_pos h2]
          cases hv : pyParseFloat (row.getD 6 "") with
          | none => right; left; exact ⟨_, rfl⟩
          | some voltage =>
            cases hc : pyParseFloat (row.getD 7 "") with
            | none => right; left; exact ⟨_, rfl⟩
            | some current0 =>
              cases hpw : pyParseFloat (row.getD 8 "") with
              | none => right; left; exact ⟨_, rfl⟩
              | some power => right; right; exact ⟨_, rfl⟩
        · rw [if_neg h2]
          right; left; exact ⟨_, rfl⟩

theorem take_append_singleton {α : Type} (l : List α) (x : α) (limit : Nat) :
    (l ++ [x]).take limit =
      if l.length < limit then l.take limit ++ [x] else l.take limit := by
  by_cases h : l.length < limit
  · rw [if_pos h, List.take_append_eq_append_take]
    congr 1
    apply List.take_of_length_le
    simp
    omega
  · rw [if_neg h, List.take_append_of_le_length (by omega)]

theorem addProt_inv (st : EasyPD.ImpState) (r : EasyPD.ProtRec)
    (h : st.visLog = st.rawLog.take EasyPD.ui_log_limit) :
    (EasyPD.addProt st r).visLog =
      (EasyPD.addProt st r).rawLog.take EasyPD.ui_log_limit := by
  unfold EasyPD.addProt
  dsimp only
  rw [take_append_singleton]
  have hlen : st.visLog.length = min EasyPD.ui_log_limit st.rawLog.length := by
    rw [h, List.length_take]
  by_cases h2 : st.rawLog.length < EasyPD.ui_log_limit
  · rw [if_pos h2, if_pos (by omega)]
    rw [h]
  · rw [if_neg h2, if_neg (by omega)]
    exact h

theorem addMeas_inv (st : EasyPD.ImpState) (m : EasyPD.MeasRec)
    (h : st.visMeas = st.rawMeas.take EasyPD.ui_measurement_limit) :
    (EasyPD.addMeas st m).visMeas =
      (EasyPD.addMeas st m).rawMeas.take EasyPD.ui_measurement_limit := by
  unfold EasyPD.addMeas
  dsimp only
  rw [take_append_singleton]
  have hlen : st.visMeas.length = min EasyPD.ui_measurement_limit st.rawMeas.length := by
    rw [h, List.length_take]
  by_cases h2 : st.rawMeas.length < EasyPD.ui_measurement_limit
  · rw [if_pos h2, if_pos (by omega)]
    rw [h]
  · rw [if_neg h2, if_neg (by omega)]
    exact h

theorem importFold_inv (rows : List (List String)) :
    ∀ st : EasyPD.ImpState,
      st.visLog = st.rawLog.take EasyPD.ui_log_limit →
      st.visMeas = st.rawMeas.take EasyPD.ui_measurement_limit →
      (rows.foldl EasyPD.importRow st).visLog =
        (rows.foldl EasyPD.importRow st).rawLog.take EasyPD.ui_log_limit ∧
      (rows.foldl EasyPD.importRow st).visMeas =
        (rows.foldl EasyPD.importRow st).rawMeas.take EasyPD.ui_measurement_limit := by
  induction rows with
  | nil => intro st h1 h2; exact ⟨h1, h2⟩
  | cons row rest ih =>
    intro st h1 h2
    rw [List.foldl_cons]
    rcases importRow_cases st row with hc | ⟨r, hc⟩ | ⟨m, hc⟩
    · rw [hc]; exact ih st h1 h2
    · rw [hc]
      exact ih _ (addProt_inv st r h1) h2
    · rw [hc]
      exact ih _ h1 (addMeas_inv st m h2)

theorem import_csv_take (zh6 en6 : List String) (rows : List (List String)) :
    (EasyPD.import_csv zh6 en6 rows).visLog =
      (EasyPD.import_csv zh6 en6 rows).rawLog.take EasyPD.ui_log_limit ∧
    (EasyPD.import_csv zh6 en6 rows).visMeas =
      (EasyPD.import_csv zh6 en6 rows).rawMeas.take EasyPD.ui_measurement_limit := by
  unfold EasyPD.import_csv
  cases rows with
  | nil => exact ⟨rfl, rfl⟩
  | cons r0 rest =>
    dsimp only
    by_cases h : r0 = zh6 ∨ r0 = en6
    · rw [if_pos h]
      exact importFold_inv rest EasyPD.emptyImpState rfl rfl
    · rw [if_neg h]
      exact importFold_inv (r0 :: rest) EasyPD.emptyImpState rfl rfl

/-! ## Decimal rendering and parsing round-trip lemmas -/

theorem charDigit_toNat (d : Nat) (h : d < 10) :
    (Char.ofNat (48 + d)).toNat = 48 + d := by
  interval_cases d <;> decide

theorem parseDecAux_append (xs : List Char) (acc : Nat) (ys : List Char) :
    parseDecAux acc (xs ++ ys) =
      match parseDecAux acc xs with
      | none => none
      | some a => parseDecAux a ys := by
  induction xs generalizing acc with
  | nil => simp [parseDecAux]
  | cons c cs ih =>
    simp only [List.cons_append, parseDecAux]
    by_cases h : 48 ≤ c.toNat ∧ c.toNat ≤ 57
    · rw [if_pos h, if_pos h]
      exact ih _
    · rw [if_neg h, if_neg h]

theorem parseDecAux_digit (acc d : Nat) (h : d < 10) (cs : List Char) :
    parseDecAux acc (Char.ofNat (48 + d) :: cs) = parseDecAux (10 * acc + d) cs := by
  have ht := charDigit_toNat d h
  simp only [parseDecAux]
  rw [if_pos (by constructor <;> omega)]
  congr 1
  omega

theorem parseDecAux_natDigitsRev (n : Nat) :
    ∀ acc, parseDecAux acc ((natDigitsRev n).reverse) =
      some (acc * 10 ^ (natDigitsRev n).length + n) := by
  induction n using Nat.strong_induction_on with
  | _ n ih =>
    intro acc
    match n with
    | 0 => simp [natDigitsRev, natDigitsRevFuel, parseDecAux]
    | Nat.succ m =>
      rw [natDigitsRev_succ, List.reverse_cons, parseDecAux_append]
      rw [ih ((m + 1) / 10) (Nat.div_lt_self (Nat.succ_pos m) (by decide)) acc]
      dsimp only
      rw [parseDecAux_digit _ _ (Nat.mod_lt _ (by decide))]
      simp only [parseDecAux, List.length_cons]
      congr 1
      have hdm : 10 * (acc * 10 ^ (natDigitsRev ((m + 1) / 10)).length + (m + 1) / 10)
          + (m + 1) % 10
        = acc * 10 ^ ((natDigitsRev ((m + 1) / 10)).length + 1)
          + (10 * ((m + 1) / 10) + (m + 1) % 10) := by ring
      rw [hdm, Nat.div_add_mod]

theorem natDigitsRev_digits (n : Nat) :
    ∀ c ∈ natDigitsRev n, 48 ≤ c.toNat ∧ c.toNat ≤ 57 := by
  induction n using Nat.strong_induction_on with
  | _ n ih =>
    match n with
    | 0 => intro c hc; exact absurd hc (List.not_mem_nil c)
    | Nat.succ m =>
      intro c hc
      rw [natDigitsRev_succ] at hc
      rcases List.mem_cons.mp hc with h | h
      · subst h
        have hlt : (m + 1) % 10 < 10 := Nat.mod_lt _ (by decide)
        rw [charDigit_toNat _ hlt]
        omega
      · exact ih ((m + 1) / 10) (Nat.div_lt_self (Nat.succ_pos m) (by decide)) c h

theorem natDigitsRev_ne_nil (n : Nat) (h : n ≠ 0) : natDigitsRev n ≠ [] := by
  match n, h with
  | Nat.succ m, _ => rw [natDigitsRev_succ]; simp

theorem natDec_data (n : Nat) :
    (natDec n).data = if n = 0 then ['0'] else (natDigitsRev n).reverse := by
  unfold natDec
  by_cases h : n = 0
  · rw [if_pos h, if_pos h]
  · rw [if_neg h, if_neg h]

theorem natDec_digits (n : Nat) :
    ∀ c ∈ (natDec n).data, 48 ≤ c.toNat ∧ c.toNat ≤ 57 := by
  rw [natDec_data]
  by_cases h : n = 0
  · rw [if_pos h]
    intro c hc
    simp only [List.mem_singleton] at hc
    subst hc; decide
  · rw [if_neg h]
    intro c hc
    exact natDigitsRev_digits n c (List.mem_reverse.mp hc)

theorem natDec_ne_nil (n : Nat) : (natDec n).data ≠ [] := by
  rw [natDec_data]
  by_cases h : n = 0
  · rw [if_pos h]; simp
  · rw [if_neg h]
    simpa using natDigitsRev_ne_nil n h

theorem parseDecDigits_natDec (n : Nat) : parseDecDigits (natDec n).data = some n := by
  rw [natDec_data]
  by_cases h : n = 0
  · rw [if_pos h]; subst h; rfl
  · rw [if_neg h]
    have hv := parseDecAux_natDigitsRev n 0
    simp only [Nat.zero_mul, Nat.zero_add] at hv
    match hcase : (natDigitsRev n).reverse with
    | [] =>
      exact absurd (by simpa using hcase) (natDigitsRev_ne_nil n h)
    | c :: cs =>
      rw [hcase] at hv
      simpa [parseDecDigits] using hv

theorem pyParseInt_of_digits (s : String) (hne : s.data ≠ [])
    (hd : ∀ c ∈ s.data, 48 ≤ c.toNat ∧ c.toNat ≤ 57) :
    pyParseInt s = (parseDecDigits s.data).map (fun n => (n : ℤ)) := by
  match hs : s.data with
  | [] => exact absurd hs hne
  | c :: rest =>
    have hc := hd c (by rw [hs]; exact List.mem_cons_self c rest)
    unfold pyParseInt
    rw [hs]
    dsimp only
    rw [if_neg (by intro h; subst h; revert hc; decide)]
    rw [if_neg (by intro h; subst h; revert hc; decide)]

theorem pyParseInt_natDec (n : Nat) : pyParseInt (natDec n) = some (n : ℤ) := by
  rw [pyParseInt_of_digits _ (natDec_ne_nil n) (natDec_digits n),
    parseDecDigits_natDec]
  rfl

theorem pyParseInt_intDec (i : ℤ) : pyParseInt (intDec i) = some i := by
  unfold intDec
  by_cases h : i < 0
  · rw [if_pos h]
    have hdata : ("-" ++ natDec i.natAbs).data = '-' :: (natDec i.natAbs).data := by
      rw [String.data_append]
      rfl
    unfold pyParseInt
    rw [hdata]
    dsimp only
    rw [if_pos rfl, parseDecDigits_natDec]
    show some (-(i.natAbs : ℤ)) = some i
    congr 1
    omega
  · rw [if_neg h, pyParseInt_natDec]
    congr 1
    omega

theorem pyParseFloat_zero : pyParseFloat "0" = some 0 := by
  simp +decide [pyParseFloat, pyParseFloatMag, parseDecDigits, parseDecAux]

theorem importRow_c1Row (st : EasyPD.ImpState) (i : Nat) :
    EasyPD.importRow st (c1Row i) = EasyPD.addProt st (c1Rec i) := by
  unfold EasyPD.importRow c1Row
  rw [if_neg (by simp)]
  rw [show ([natDec i, "t", "0", "PDO", "", ""].getD 0 "") = natDec i from rfl,
    pyParseInt_natDec]
  dsimp only
  rw [show ([natDec i, "t", "0", "PDO", "", ""].getD 2 "") = "0" from rfl,
    pyParseFloat_zero]
  dsimp only
  rw [if_neg (by simp)]
  rfl

theorem foldl_c1Rows (l : List Nat) :
    ∀ st : EasyPD.ImpState,
      ((l.map c1Row).foldl EasyPD.importRow st).rawLog = st.rawLog ++ l.map c1Rec := by
  induction l with
  | nil => intro st; simp
  | cons i rest ih =>
    intro st
    simp only [List.map_cons, List.foldl_cons, importRow_c1Row]
    rw [ih]
    simp [EasyPD.addProt]

theorem import_csv_foldl (zh6 en6 : List String) (rows : List (List String))
    (h : ∀ r ∈ rows, r ≠ zh6 ∧ r ≠ en6) :
    EasyPD.import_csv zh6 en6 rows =
      rows.foldl EasyPD.importRow EasyPD.emptyImpState := by
  unfold EasyPD.import_csv
  cases rows with
  | nil => rfl
  | cons r0 rest =>
    dsimp only
    rw [if_neg]
    rintro (hz | he)
    · exact (h r0 (List.mem_cons_self r0 rest)).1 hz
    · exact (h r0 (List.mem_cons_self r0 rest)).2 he

/-- C1 (amended): on each batch tick the raw buffer always extends by the
whole pending batch (so it grows monotonically); when the visible buffer is
a suffix of raw it stays one, with length at most raw's; eviction restores
the visible buffer to exactly the cap when it had already reached the cap
before insertion and the batch is no larger than the cap, and a tick whose
combined size stays within the cap never exceeds it — but a tick can
overshoot the cap when visible was still below it (see the counterexample);
the same holds for the measurement cap; after a CSV import the visible
buffers hold the first cap-many raw records (a prefix of raw, not a
suffix), so their lengths never exceed the caps. -/
theorem c1_record_buffers {α : Type} (raw visible pending : List α) :
    (EasyPD.batchApply EasyPD.ui_log_limit raw visible pending).1 =
      raw ++ pending ∧
    (visible <:+ raw →
      (EasyPD.batchApply EasyPD.ui_log_limit raw visible pending).2 <:+
        (EasyPD.batchApply EasyPD.ui_log_limit raw visible pending).1) ∧
    (visible <:+ raw →
      (EasyPD.batchApply EasyPD.ui_log_limit raw visible pending).2.length ≤
        (EasyPD.batchApply EasyPD.ui_log_limit raw visible pending).1.length) ∧
    (EasyPD.ui_log_limit ≤ visible.length → pending ≠ [] →
      pending.length ≤ EasyPD.ui_log_limit →
      (EasyPD.batchApply EasyPD.ui_log_limit raw visible pending).2.length =
        EasyPD.ui_log_limit) ∧
    (visible.length + pending.length ≤ EasyPD.ui_log_limit →
      (EasyPD.batchApply EasyPD.ui_log_limit raw visible pending).2.length ≤
        EasyPD.ui_log_limit) ∧
    (EasyPD.ui_measurement_limit ≤ visible.length → pending ≠ [] →
      pending.length ≤ EasyPD.ui_measurement_limit →
      (EasyPD.batchApply EasyPD.ui_measurement_limit raw visible pending).2.length =
        EasyPD.ui_measurement_limit) ∧
    (visible.length + pending.length ≤ EasyPD.ui_measurement_limit →
      (EasyPD.batchApply EasyPD.ui_measurement_limit raw visible pending).2.length ≤
        EasyPD.ui_measurement_limit) ∧
    (∀ zh6 en6 : List String, ∀ rows : List (List String),
      (EasyPD.import_csv zh6 en6 rows).visLog =
        (EasyPD.import_csv zh6 en6 rows).rawLog.take EasyPD.ui_log_limit ∧
      (EasyPD.import_csv zh6 en6 rows).visMeas =
        (EasyPD.import_csv zh6 en6 rows).rawMeas.take EasyPD.ui_measurement_limit ∧
      (EasyPD.import_csv zh6 en6 rows).visLog.length ≤ EasyPD.ui_log_limit ∧
      (EasyPD.import_csv zh6 en6 rows).visMeas.length ≤
        EasyPD.ui_measurement_limit) := by
  refine ⟨batchApply_raw _ _ _ _, batchApply_suffix _ _ _ _,
    fun h => (batchApply_suffix _ _ _ _ h).length_le,
    batchApply_cap_restore _ _ _ _, batchApply_under_cap _ _ _ _,
    batchApply_cap_restore _ _ _ _, batchApply_under_cap _ _ _ _, ?_⟩
  intro zh6 en6 rows
  obtain ⟨h1, h2⟩ := import_csv_take zh6 en6 rows
  refine ⟨h1, h2, ?_, ?_⟩
  · rw [h1, List.length_take]; omega
  · rw [h2, List.length_take]; omega

/-- Witness for C1 (amended): a small batch tick keeps raw and the suffix
relation; a tick at the cap restores the cap exactly; an empty import stays
within the caps. -/
theorem c1_record_buffers_witness :
    (EasyPD.batchApply EasyPD.ui_log_limit [0] [0] [1]).1 = [0] ++ [1] ∧
    (EasyPD.batchApply EasyPD.ui_log_limit [0] [0] [1]).2 <:+
      (EasyPD.batchApply EasyPD.ui_log_limit [0] [0] [1]).1 ∧
    (EasyPD.batchApply EasyPD.ui_log_limit (List.replicate 5000 (0 : ℕ))
      (List.replicate 5000 (0 : ℕ)) [1]).2.length = EasyPD.ui_log_limit ∧
    (EasyPD.import_csv ["x"] ["x"] []).visLog.length ≤ EasyPD.ui_log_limit :=
  ⟨(c1_record_buffers [0] [0] [1]).1,
   (c1_record_buffers [0] [0] [1]).2.1 (List.suffix_refl [0]),
   (c1_record_buffers (List.replicate 5000 (0 : ℕ)) (List.replicate 5000 (0 : ℕ))
      [1]).2.2.2.1 (by rw [List.length_replicate]; exact Nat.le_refl 5000)
      (by simp) (by decide),
   ((c1_record_buffers ([] : List ℕ) [] []).2.2.2.2.2.2.2 ["x"] ["x"] []).2.2.1⟩

/-- Counterexample to C1 as stated: (i) a batch tick from 4999 visible
records with 2 pending leaves 5001 visible records, exceeding the 5000 cap,
because eviction only triggers when the cap was already reached before
insertion; (ii) importing 5001 protocol rows leaves the visible buffer as
the first 5000 raw records, which is not a suffix of the raw buffer. -/
theorem c1_counterexample :
    (EasyPD.batchApply EasyPD.ui_log_limit (List.replicate 4999 (0 : ℕ))
      (List.replicate 4999 (0 : ℕ)) [0, 0]).2.length = 5001 ∧
    EasyPD.ui_log_limit < 5001 ∧
    ¬ ((EasyPD.import_csv ["x"] ["x"] ((List.range 5001).map c1Row)).visLog <:+
        (EasyPD.import_csv ["x"] ["x"] ((List.range 5001).map c1Row)).rawLog) := by
  refine ⟨?_, by decide, ?_⟩
  · unfold EasyPD.batchApply
    rw [if_neg (by simp)]
    dsimp only
    rw [if_neg (by rw [List.length_replicate]; decide)]
    rw [List.length_append, List.length_replicate]
    rfl
  · have hnohdr : ∀ r ∈ (List.range 5001).map c1Row, r ≠ ["x"] ∧ r ≠ ["x"] := by
      intro r hr
      obtain ⟨i, _, rfl⟩ := List.mem_map.mp hr
      have h6 : (c1Row i).length = 6 := rfl
      constructor <;>
        · intro hEq
          rw [hEq] at h6
          exact absurd h6 (by decide)
    have hfold := import_csv_foldl ["x"] ["x"] ((List.range 5001).map c1Row) hnohdr
    have hraw : (EasyPD.import_csv ["x"] ["x"]
        ((List.range 5001).map c1Row)).rawLog = (List.range 5001).map c1Rec := by
      rw [hfold, foldl_c1Rows]
      exact List.nil_append _
    have hlenA : ((List.range 5000).map c1Rec).length = 5000 := by
      rw [List.length_map, List.length_range]
    have hvis : (EasyPD.import_csv ["x"] ["x"]
        ((List.range 5001).map c1Row)).visLog = (List.range 5000).map c1Rec := by
      rw [(import_csv_take _ _ _).1, hraw]
      rw [show (5001 : Nat) = 5000 + 1 from rfl, List.range_succ, List.map_append,
        List.take_append_of_le_length (by rw [hlenA]; exact Nat.le_refl 5000)]
      apply List.take_of_length_le
      rw [hlenA]
      exact Nat.le_refl 5000
    intro hsuf
    rw [hvis, hraw] at hsuf
    obtain ⟨t, ht⟩ := hsuf
    have hA : (List.range 5000).map c1Rec ≠ [] := by
      intro h
      rw [h] at hlenA
      exact absurd hlenA (by decide)
    have hB : ((List.range 5001).map c1Rec).getLast? = some (c1Rec 5000) := by
      rw [show (5001 : Nat) = 5000 + 1 from rfl, List.range_succ, List.map_append,
        List.map_singleton,
        show ([c1Rec 5000] : List EasyPD.ProtRec) = c1Rec 5000 :: [] from rfl,
        List.getLast?_append_cons]
      rfl
    have hAB : ((List.range 5001).map c1Rec).getLast? =
        ((List.range 5000).map c1Rec).getLast? := by
      rw [← ht]
      exact List.getLast?_append_of_ne_nil t hA
    have hmemLast : c1Rec 5000 ∈ ((List.range 5000).map c1Rec).getLast? := by
      rw [← hAB]
      rw [hB]
      rfl
    obtain ⟨hne2, hx⟩ := List.mem_getLast?_eq_getLast hmemLast
    have hmem : c1Rec 5000 ∈ (List.range 5000).map c1Rec := by
      rw [hx]
      exact List.getLast_mem hne2
    obtain ⟨i, hi, hEq⟩ := List.mem_map.mp hmem
    have hidx : (i : ℤ) = (5000 : Nat) := congrArg EasyPD.ProtRec.index hEq
    have hieq : i = 5000 := by exact_mod_cast hidx
    subst hieq
    exact absurd (List.mem_range.mp hi) (by omega)

/-! ## C3: auto-pause state machine -/

/-- C3 (amended): for a running-state sample with auto-pause enabled and the
configured metric value present: a value strictly below the threshold with
zero delay pauses immediately (capture paused, pause flag 1, no pending
timer); with a positive delay, the one-shot timer is started and the
(metric, threshold) pair remembered only when no timer is pending and the
delay converts to at least one whole millisecond (int(delay*1000) >= 1 -
sub-millisecond positive delays are dropped without pausing or scheduling,
see the counterexample); an already-pending timer leaves the state entirely
unchanged (no restart); a value at or above the threshold cancels any
pending delay; on timer expiry the latest observed value of the remembered
metric is re-read, pausing only if still below the remembered threshold and
merely clearing the pending pair otherwise; and triggering pause while
already paused is a no-op. -/
theorem c3_auto_pause (now : ℚ) (v c : Option ℚ) (x : ℚ)
    (st : EasyPD.AppState) (metric : String) (threshold : ℚ)
    (hm : metric = (if st.autoPauseMetric = "voltage" ∨ st.autoPauseMetric = "current"
      then st.autoPauseMetric else "voltage"))
    (hth : threshold = (if metric = "voltage" then st.voltageThreshold
      else st.currentThreshold)) :
    (st.autoPauseEnabled = true → st.deviceOpen = true → st.isPaused = false →
      (if metric = "voltage" then v else c) = some x → x < threshold →
      st.autoPauseDelaySeconds = 0 →
      EasyPD.checkAndApplyAutoPause now v c st =
        { st with isPaused := true, pauseFlagValue := 1, timerActive := false,
                  pendingMetric := none, pendingThreshold := none }) ∧
    (st.autoPauseEnabled = true → st.deviceOpen = true → st.isPaused = false →
      (if metric = "voltage" then v else c) = some x → x < threshold →
      0 < st.autoPauseDelaySeconds → 1 ≤ ⌊st.autoPauseDelaySeconds * 1000⌋ →
      st.timerActive = false →
      EasyPD.checkAndApplyAutoPause now v c st =
        { st with pendingMetric := some metric, pendingThreshold := some threshold,
                  timerActive := true }) ∧
    (st.autoPauseEnabled = true → st.deviceOpen = true → st.isPaused = false →
      (if metric = "voltage" then v else c) = some x → x < threshold →
      0 < st.autoPauseDelaySeconds → st.timerActive = true →
      EasyPD.checkAndApplyAutoPause now v c st = st) ∧
    (st.autoPauseEnabled = true → st.deviceOpen = true → st.isPaused = false →
      (if metric = "voltage" then v else c) = some x → threshold ≤ x →
      EasyPD.checkAndApplyAutoPause now v c st =
        EasyPD.cancelAutoPauseDelay st) ∧
    (∀ m : String, ∀ th : ℚ, st.pendingMetric = some m →
      st.pendingThreshold = some th → m ≠ "" →
      (if m = "voltage" then st.lastVoltage else st.lastCurrent) = some x →
      x < th → st.isPaused = false → st.deviceOpen = true →
      EasyPD.executePendingAutoPause now st =
        { st with isPaused := true, pauseFlagValue := 1, timerActive := false,
                  pendingMetric := none, pendingThreshold := none }) ∧
    (∀ m : String, ∀ th : ℚ, st.pendingMetric = some m →
      st.pendingThreshold = some th → m ≠ "" →
      (if m = "voltage" then st.lastVoltage else st.lastCurrent) = some x →
      th ≤ x →
      EasyPD.executePendingAutoPause now st =
        { st with timerActive := false, pendingMetric := none,
                  pendingThreshold := none }) ∧
    (∀ m : String, ∀ vv : Option ℚ, ∀ th : ℚ, st.isPaused = true →
      EasyPD.applyAutoPauseTrigger now m vv th st = st) := by
  subst hm
  subst hth
  refine ⟨?_, ?_, ?_, ?_, ?_, ?_, ?_⟩
  · intro hen hdo hnp hval hx hd
    simp only [EasyPD.checkAndApplyAutoPause, hen, hdo, hnp, Bool.not_true,
      Bool.or_self, Bool.false_or, Bool.or_false, if_false, hval]
    rw [if_neg (by simp), if_pos hx, if_pos (le_of_eq hd)]
    simp only [EasyPD.applyAutoPauseTrigger, hnp, if_false,
      EasyPD.toggleCollection, EasyPD.cancelAutoPauseDelay, hdo]
    simp [hen, hdo, hnp]
  · intro hen hdo hnp hval hx hd hms hta
    simp only [EasyPD.checkAndApplyAutoPause, hen, hdo, hnp, Bool.not_true,
      Bool.or_self, Bool.false_or, Bool.or_false, if_false, hval]
    rw [if_neg (by simp), if_pos hx, if_neg (by exact not_le.mpr hd)]
    simp only [EasyPD.scheduleAutoPauseDelay, hta]
    rw [if_neg (by omega), if_neg (by simp)]
    rw [hen, hdo, hnp]
  · intro hen hdo hnp hval hx hd hta
    simp only [EasyPD.checkAndApplyAutoPause, hen, hdo, hnp, Bool.not_true,
      Bool.or_self, Bool.false_or, Bool.or_false, if_false, hval]
    rw [if_neg (by simp), if_pos hx, if_neg (by exact not_le.mpr hd)]
    simp only [EasyPD.scheduleAutoPauseDelay, hta]
    split
    · rfl
    · rfl
  · intro hen hdo hnp hval hx
    simp only [EasyPD.checkAndApplyAutoPause, hen, hdo, hnp, Bool.not_true,
      Bool.or_self, Bool.false_or, Bool.or_false, if_false, hval]
    rw [if_neg (by simp), if_neg (not_lt.mpr hx)]
  · intro m th hpm hpth hmne hlast hx hnp hdo
    simp only [EasyPD.executePendingAutoPause, hpm, hpth]
    rw [if_neg hmne]
    simp only [hlast]
    rw [if_pos hx]
    simp only [EasyPD.applyAutoPauseTrigger, hnp, if_false,
      EasyPD.toggleCollection, EasyPD.cancelAutoPauseDelay, hdo]
    simp [hnp, hdo]
  · intro m th hpm hpth hmne hlast hx
    simp only [EasyPD.executePendingAutoPause, hpm, hpth]
    rw [if_neg hmne]
    simp only [hlast]
    rw [if_neg (not_lt.mpr hx)]
  · intro m vv th hp
    simp [EasyPD.applyAutoPauseTrigger, hp]

/-- Witness for C3 (amended): with a one-second delay and voltage 4 below
threshold 5, the sample starts the timer and remembers (voltage, 5); a
trigger on an already-paused state is a no-op. -/
theorem c3_auto_pause_witness :
    EasyPD.checkAndApplyAutoPause 0 (some 4) none witC3State =
      { witC3State with
        pendingMetric := some "voltage",
        pendingThreshold := some 5,
        timerActive := true } ∧
    EasyPD.applyAutoPauseTrigger 0 "voltage" (some 4) 5
      { witC3State with isPaused := true } =
      { witC3State with isPaused := true } :=
  ⟨(c3_auto_pause 0 (some 4) none 4 witC3State "voltage" 5 (by decide)
      (by decide)).2.1 rfl rfl rfl rfl (by norm_num [witC3State, cexC3State])
      (by norm_num [witC3State, cexC3State])
      (by norm_num [witC3State, cexC3State]) rfl,
   (c3_auto_pause 0 (some 4) none 4 { witC3State with isPaused := true }
      "voltage" 5 (by decide) (by decide)).2.2.2.2.2.2 "voltage" (some 4) 5 rfl⟩

/-- Counterexample to C3 as stated: with auto-pause enabled on voltage,
threshold 5, delay 0.0005 s (positive) and no pending timer, a below-
threshold sample of 4 V leaves the state completely unchanged - no timer is
started, nothing is remembered and no pause is triggered - because
int(delay*1000) is 0. -/
theorem c3_counterexample :
    (0 : ℚ) < cexC3State.autoPauseDelaySeconds ∧
    cexC3State.timerActive = false ∧
    cexC3State.isPaused = false ∧
    EasyPD.checkAndApplyAutoPause 0 (some 4) none cexC3State = cexC3State := by
  refine ⟨by norm_num [cexC3State], rfl, rfl, ?_⟩
  have h2 : (4 : ℚ) < 5 := by norm_num
  have h1 : ¬ (((2000 : ℚ))⁻¹ ≤ 0) := by norm_num
  have h3 : (⌊((2000 : ℚ))⁻¹ * 1000⌋ : ℤ) ≤ 0 := by norm_num
  simp +decide [EasyPD.checkAndApplyAutoPause, EasyPD.scheduleAutoPauseDelay,
    cexC3State, h1, h2, h3]

/-! ## C6: cable identity parse -/

theorem str_ne_empty_of_data_ne_nil (s : String) (h : s.data ≠ []) : s ≠ "" :=
  fun he => h (by subst he; rfl)

theorem natDec_ne_empty (n : Nat) : natDec n ≠ "" :=
  str_ne_empty_of_data_ne_nil _ (natDec_ne_nil n)

theorem intDec_ne_empty (i : ℤ) : intDec i ≠ "" := by
  unfold intDec
  split
  · apply str_ne_empty_of_data_ne_nil
    rw [String.data_append]
    simp
  · exact natDec_ne_empty _

theorem pyStr_ne_empty (v : Py) (h : pyTruthy v = true) : pyStr v ≠ "" := by
  cases v with
  | vstr s => simpa [pyTruthy, pyStr] using h
  | vbool b =>
    cases b with
    | true => simp [pyStr]
    | false => simp [pyTruthy] at h
  | vint n => exact intDec_ne_empty n
  | vlist items => simp [pyStr]
  | node f cs val r qp qr ip ir => simp [pyStr]

theorem pyUpper_ne_empty (s : String) (h : s ≠ "") : pyUpper s ≠ "" := by
  apply str_ne_empty_of_data_ne_nil
  show (s.data.map Char.toUpper) ≠ []
  intro hc
  apply h
  have hd : s.data = [] := List.map_eq_nil_iff.mp hc
  cases s with
  | mk l => cases hd; rfl

theorem str_append_right_ne_empty (a b : String) (hb : b ≠ "") : a ++ b ≠ "" := by
  apply str_ne_empty_of_data_ne_nil
  rw [String.data_append]
  intro hc
  rcases List.append_eq_nil.mp hc with ⟨_, h2⟩
  exact hb (by cases b with | mk l => cases h2; rfl)

theorem filter_snd_ne (l : List (String × String)) :
    ∀ r ∈ l.filter (fun r => !(r.2 == "")), r.2 ≠ "" := by
  intro r hr
  have h2 := (List.mem_filter.mp hr).2
  simpa using h2

theorem optRow_truthy_values (ov : Option Py) (key : String)
    (l : List (String × String))
    (hl : l = match ov with
      | some v => if pyTruthy v then [(key, pyStr v)] else []
      | none => []) :
    ∀ r ∈ l, r.2 ≠ "" := by
  subst hl
  match ov with
  | none => intro r hr; exact absurd hr (List.not_mem_nil r)
  | some v =>
    dsimp only
    intro r hr
    by_cases h : pyTruthy v
    · rw [if_pos h] at hr
      simp only [List.mem_singleton] at hr
      subst hr
      exact pyStr_ne_empty v h
    · rw [if_neg h] at hr
      exact absurd hr (List.not_mem_nil r)

theorem optRowUpper_truthy_values (ov : Option Py) (key : String)
    (l : List (String × String))
    (hl : l = match ov with
      | some v => if pyTruthy v then [(key, pyUpper (pyStr v))] else []
      | none => []) :
    ∀ r ∈ l, r.2 ≠ "" := by
  subst hl
  match ov with
  | none => intro r hr; exact absurd hr (List.not_mem_nil r)
  | some v =>
    dsimp only
    intro r hr
    by_cases h : pyTruthy v
    · rw [if_pos h] at hr
      simp only [List.mem_singleton] at hr
      subst hr
      exact pyUpper_ne_empty _ (pyStr_ne_empty v h)
    · rw [if_neg h] at hr
      exact absurd hr (List.not_mem_nil r)

theorem cableGate_sop (p : PdPayload) (g : CableDataParser.CableGate)
    (h : CableDataParser.cableGate p = Except.ok (some g)) :
    g.sop = sopPrime ∨ g.sop = sopPrimePrime := by
  unfold CableDataParser.cableGate at h
  repeat
    all_goals
      first
      | (cases h)
      | (split at h)
  all_goals dsimp only
  all_goals assumption

theorem cableRows_ne_nil (rv : Option Py → Option String)
    (g : CableDataParser.CableGate) (f : CableDataParser.CableFinds) :
    CableDataParser.cableRows rv g f ≠ [] := by
  intro h
  have hlen := congrArg List.length h
  simp only [CableDataParser.cableRows, List.length_append, List.length_cons,
    List.length_nil] at hlen
  omega

theorem cableRows_values (rv : Option Py → Option String)
    (g : CableDataParser.CableGate) (f : CableDataParser.CableFinds)
    (hsop : g.sop ≠ "") :
    ∀ r ∈ CableDataParser.cableRows rv g f, r.2 ≠ "" := by
  intro r hr
  unfold CableDataParser.cableRows at hr
  rcases List.mem_append.mp hr with hrX | hrE
  · rcases List.mem_append.mp hrX with hrY | hrD
    · rcases List.mem_append.mp hrY with hrZ | hrC
      · rcases List.mem_append.mp hrZ with hrA | hrB
        · exact optRow_truthy_values
            (CableDataParser.get_value g.vdmHeader "SVID") "cable_svid" _ rfl r hrA
        · rcases List.mem_cons.mp hrB with hB1 | hB2
          · subst hB1; exact hsop
          · rcases List.mem_cons.mp hB2 with hB3 | hB4
            · subst hB3
              exact str_append_right_ne_empty _ ")" (by decide)
            · exact absurd hB4 (List.not_mem_nil r)
      · match hfind : f.idHeader with
        | none =>
          rw [hfind] at hrC
          exact absurd hrC (List.not_mem_nil r)
        | some idh =>
          rw [hfind] at hrC
          dsimp only at hrC
          rcases List.mem_append.mp hrC with hrV | hrR
          · match hvid : CableDataParser.get_value idh "USB Vendor ID" with
            | none =>
              rw [hvid] at hrV
              exact absurd hrV (List.not_mem_nil r)
            | some v =>
              rw [hvid] at hrV
              dsimp only at hrV
              by_cases htr : pyTruthy v
              · rw [if_pos htr] at hrV
                simp only [List.mem_singleton] at hrV
                subst hrV
                dsimp only
                cases rv (some v) with
                | some nm => exact str_append_right_ne_empty _ ")" (by decide)
                | none => exact pyUpper_ne_empty _ (pyStr_ne_empty v htr)
              · rw [if_neg htr] at hrV
                exact absurd hrV (List.not_mem_nil r)
          · by_cases hc : g.sop = sopPrime ∨ g.sop = sopPrimePrime
            · rw [if_pos hc] at hrR
              exact optRow_truthy_values
                (CableDataParser.get_value idh "Product Type (Cable Plug/VPD)")
                "cable_role" _ rfl r hrR
            · rw [if_neg hc] at hrR
              exact absurd hrR (List.not_mem_nil r)
    · match hfind : f.productVdo with
      | none =>
        rw [hfind] at hrD
        exact absurd hrD (List.not_mem_nil r)
      | some pv =>
        rw [hfind] at hrD
        dsimp only at hrD
        rcases List.mem_append.mp hrD with hrP | hrQ
        · exact optRowUpper_truthy_values
            (CableDataParser.get_value pv "USB Product ID") "cable_product_id"
            _ rfl r hrP
        · exact optRowUpper_truthy_values
            (CableDataParser.get_value pv "bcdDevice") "cable_device_version"
            _ rfl r hrQ
  · match hp : f.passiveVdo with
    | some pvdo =>
      rw [hp] at hrE
      rcases List.mem_cons.mp hrE with h1 | h2
      · subst h1; decide
      · exact filter_snd_ne _ r h2
    | none =>
      rw [hp] at hrE
      match ha : f.activeVdo1 with
      | some a1 =>
        rw [ha] at hrE
        rcases List.mem_cons.mp hrE with h1 | h2
        · subst h1; decide
        · exact filter_snd_ne _ r h2
      | none =>
        rw [ha] at hrE
        match hv : f.vpdVdo with
        | some vpd =>
          rw [hv] at hrE
          rcases List.mem_cons.mp hrE with h1 | h2
          · subst h1; decide
          · exact filter_snd_ne _ r h2
        | none =>
          rw [hv] at hrE
          exact absurd hrE (List.not_mem_nil r)

/-- C6 (amended): CableDataParser.parse returns ok-None whenever the
structural gate rejects the packet without any unguarded call raising, i.e.
whenever it is not a vendor-defined Structured-VDM Discover-Identity ACK
addressed to a cable plug (SOP-prime or SOP-double-prime); on a matching
packet whose six field() scans resolve without raising it returns exactly
the built row list, which is non-empty (the source and command fields always
resolve from the gate itself) and contains no row with an empty value, every
guarded extraction failure (_get_value) being treated as the field absent.
However parse contains no try/except of its own, so it does NOT never raise:
a value()/field() attribute that is present (its hasattr guard passes) but
raises when called propagates the exception to the caller, both from the
gate chain and from the scans - see the counterexample. -/
theorem c6_cable_parse (rv : Option Py → Option String) (p : PdPayload) :
    (CableDataParser.cableGate p = Except.ok none →
      CableDataParser.parse rv p = Except.ok none) ∧
    (∀ g f, CableDataParser.cableGate p = Except.ok (some g) →
      CableDataParser.cableFinds g.entries = Except.ok f →
      CableDataParser.parse rv p =
        Except.ok (some (CableDataParser.cableRows rv g f)) ∧
      CableDataParser.cableRows rv g f ≠ [] ∧
      ∀ r ∈ CableDataParser.cableRows rv g f, r.2 ≠ "") ∧
    (CableDataParser.cableGate p = Except.error () →
      CableDataParser.parse rv p = Except.error ()) := by
  refine ⟨?_, ?_, ?_⟩
  · intro h
    unfold CableDataParser.parse
    rw [h]
  · intro g f hg hf
    have hne := cableRows_ne_nil rv g f
    have hsop : g.sop ≠ "" := by
      rcases cableGate_sop p g hg with h1 | h1
      · rw [h1]; decide
      · rw [h1]; decide
    refine ⟨?_, hne, cableRows_values rv g f hsop⟩
    unfold CableDataParser.parse
    rw [hg]
    dsimp only
    rw [hf]
    dsimp only
    rw [if_neg]
    intro hEmp
    exact hne (List.isEmpty_iff.mp hEmp)
  · intro h
    unfold CableDataParser.parse
    rw [h]

/-- The concrete matching packet c6Payload parses to its non-empty row list
with no empty values. -/
theorem c6_cable_parse_witness :
    CableDataParser.parse c6rv c6Payload =
      Except.ok (some (CableDataParser.cableRows c6rv c6Gate c6Finds)) ∧
    CableDataParser.cableRows c6rv c6Gate c6Finds ≠ [] ∧
    ∀ r ∈ CableDataParser.cableRows c6rv c6Gate c6Finds, r.2 ≠ "" :=
  (c6_cable_parse c6rv c6Payload).2.1 c6Gate c6Finds rfl rfl

/-- A packet whose Data Objects child has a value attribute (the hasattr
guard inside _get_metadata passes, so _get_metadata returns the child) whose
call raises: the unguarded data_objects.value() at pd_decoder.py line 173
propagates and CableDataParser.parse raises instead of returning None,
refuting the original never-raises/never-propagated conjunct. -/
theorem c6_counterexample :
    c6BadDataObjects.valueAttr = some none ∧
    CableDataParser.get_metadata c6BadPkg "Data Objects" = some c6BadDataObjects ∧
    CableDataParser.parse c6rv c6BadPayload = Except.error () :=
  ⟨rfl, rfl, rfl⟩

theorem natDigitsRev_zero : natDigitsRev 0 = [] := rfl

theorem natDigitsRev_length_1 (m : Nat) (h0 : 1 ≤ m) (h : m < 10) :
    (natDigitsRev m).length = 1 := by
  match m, h0 with
  | Nat.succ k, _ =>
    rw [natDigitsRev_succ]
    have hdiv : (k + 1) / 10 = 0 := Nat.div_eq_of_lt (by omega)
    rw [hdiv, natDigitsRev_zero]
    rfl

theorem natDigitsRev_length_2 (m : Nat) (h0 : 10 ≤ m) (h : m < 100) :
    (natDigitsRev m).length = 2 := by
  match m, (by omega : 1 ≤ m) with
  | Nat.succ k, _ =>
    rw [natDigitsRev_succ, List.length_cons,
      natDigitsRev_length_1 ((k + 1) / 10) (by omega) (by omega)]

theorem natDigitsRev_length_3 (m : Nat) (h0 : 100 ≤ m) (h : m < 1000) :
    (natDigitsRev m).length = 3 := by
  match m, (by omega : 1 ≤ m) with
  | Nat.succ k, _ =>
    rw [natDigitsRev_succ, List.length_cons,
      natDigitsRev_length_2 ((k + 1) / 10) (by omega) (by omega)]

theorem natDec_length_1 (m : Nat) (h : m < 10) : (natDec m).data.length = 1 := by
  rw [natDec_data]
  by_cases h0 : m = 0
  · rw [if_pos h0]; rfl
  · rw [if_neg h0, List.length_reverse, natDigitsRev_length_1 m (by omega) h]

theorem natDec_length_2 (m : Nat) (h0 : 10 ≤ m) (h : m < 100) :
    (natDec m).data.length = 2 := by
  rw [natDec_data, if_neg (by omega), List.length_reverse,
    natDigitsRev_length_2 m h0 h]

theorem natDec_length_3 (m : Nat) (h0 : 100 ≤ m) (h : m < 1000) :
    (natDec m).data.length = 3 := by
  rw [natDec_data, if_neg (by omega), List.length_reverse,
    natDigitsRev_length_3 m h0 h]

theorem pad3_data (m : Nat) :
    (pad3 m).data =
      if m < 10 then '0' :: '0' :: (natDec m).data
      else if m < 100 then '0' :: (natDec m).data
      else (natDec m).data := by
  unfold pad3
  by_cases h1 : m < 10
  · rw [if_pos h1, if_pos h1, String.data_append]
    rfl
  · rw [if_neg h1, if_neg h1]
    by_cases h2 : m < 100
    · rw [if_pos h2, if_pos h2, String.data_append]
      rfl
    · rw [if_neg h2, if_neg h2]

theorem pad3_length (m : Nat) (h : m < 1000) : (pad3 m).data.length = 3 := by
  rw [pad3_data]
  by_cases h1 : m < 10
  · rw [if_pos h1]
    simp [natDec_length_1 m h1]
  · rw [if_neg h1]
    by_cases h2 : m < 100
    · rw [if_pos h2]
      simp [natDec_length_2 m (by omega) h2]
    · rw [if_neg h2]
      exact natDec_length_3 m (by omega) h

theorem pad3_digits (m : Nat) :
    ∀ c ∈ (pad3 m).data, 48 ≤ c.toNat ∧ c.toNat ≤ 57 := by
  rw [pad3_data]
  intro c hc
  by_cases h1 : m < 10
  · rw [if_pos h1] at hc
    rcases List.mem_cons.mp hc with h | h
    · subst h; decide
    · rcases List.mem_cons.mp h with h | h
      · subst h; decide
      · exact natDec_digits m c h
  · rw [if_neg h1] at hc
    by_cases h2 : m < 100
    · rw [if_pos h2] at hc
      rcases List.mem_cons.mp hc with h | h
      · subst h; decide
      · exact natDec_digits m c h
    · rw [if_neg h2] at hc
      exact natDec_digits m c hc

theorem parseDecAux_zero_cons (cs : List Char) :
    parseDecAux 0 ('0' :: cs) = parseDecAux 0 cs := by
  simp only [parseDecAux]
  rw [if_pos (by decide)]
  have h : 10 * 0 + ('0'.toNat - 48) = 0 := by decide
  rw [h]

theorem parseDecAux_natDec (n : Nat) : parseDecAux 0 (natDec n).data = some n := by
  have h := parseDecDigits_natDec n
  unfold parseDecDigits at h
  match hd : (natDec n).data with
  | [] => exact absurd hd (natDec_ne_nil n)
  | c :: cs =>
    rw [hd] at h
    exact h

theorem parseDecAux_pad3 (m : Nat) : parseDecAux 0 (pad3 m).data = some m := by
  rw [pad3_data]
  by_cases h1 : m < 10
  · rw [if_pos h1, parseDecAux_zero_cons, parseDecAux_zero_cons, parseDecAux_natDec]
  · rw [if_neg h1]
    by_cases h2 : m < 100
    · rw [if_pos h2, parseDecAux_zero_cons, parseDecAux_natDec]
    · rw [if_neg h2, parseDecAux_natDec]

theorem takeWhile_append_stop (p : Char → Bool) (xs ys : List Char) (c : Char)
    (hxs : ∀ x ∈ xs, p x = true) (hc : p c = false) :
    (xs ++ c :: ys).takeWhile p = xs ∧ (xs ++ c :: ys).dropWhile p = c :: ys := by
  induction xs with
  | nil =>
    simp [List.takeWhile_cons, List.dropWhile_cons, hc]
  | cons x xs ih =>
    have hx := hxs x (List.mem_cons_self x xs)
    have hrest := ih (fun a ha => hxs a (List.mem_cons_of_mem x ha))
    simp only [List.cons_append, List.takeWhile_cons, List.dropWhile_cons, hx,
      if_true, hrest.1, hrest.2]
    exact ⟨trivial, trivial⟩

theorem digit_not_dot (c : Char) (h : 48 ≤ c.toNat ∧ c.toNat ≤ 57) :
    (!(c == '.')) = true := by
  have : ¬(c = '.') := by
    intro hc
    subst hc
    revert h
    decide
  simp [this]

theorem pyParseFloatMag_natDec_pad3 (a b : Nat) (hb : b < 1000) :
    pyParseFloatMag ((natDec a).data ++ '.' :: (pad3 b).data) =
      some ((a : ℚ) + (b : ℚ) / 1000) := by
  unfold pyParseFloatMag
  obtain ⟨htake, hdrop⟩ := takeWhile_append_stop (fun c => !(c == '.'))
    (natDec a).data (pad3 b).data '.'
    (fun x hx => digit_not_dot x (natDec_digits a x hx)) (by decide)
  rw [htake, hdrop]
  dsimp only
  rw [if_neg (by
    intro hand
    exact natDec_ne_nil a (List.isEmpty_iff.mp hand.1))]
  rw [parseDecAux_natDec a, parseDecAux_pad3 b]
  dsimp only
  rw [pad3_length b hb]
  norm_num

theorem fmt3_data (q : ℚ) :
    (fmt3 q).data =
      (if roundHalfEven (q * 1000) < 0 then ['-'] else []) ++
        ((natDec ((roundHalfEven (q * 1000)).natAbs / 1000)).data ++
          '.' :: (pad3 ((roundHalfEven (q * 1000)).natAbs % 1000)).data) := by
  unfold fmt3
  dsimp only
  by_cases hneg : roundHalfEven (q * 1000) < 0
  · rw [if_pos hneg, if_pos hneg]
    simp [String.data_append]
  · rw [if_neg hneg, if_neg hneg]
    simp [String.data_append]

theorem fmt3_ne_empty (q : ℚ) : fmt3 q ≠ "" := by
  intro h
  have hd : (fmt3 q).data = [] := by rw [h]
  rw [fmt3_data] at hd
  rcases List.append_eq_nil.mp hd with ⟨_, h2⟩
  exact natDec_ne_nil _ (List.append_eq_nil.mp h2).1

theorem pyParseFloat_of_data_pos (s : String) (a b : Nat) (hb : b < 1000)
    (hdata : s.data = (natDec a).data ++ '.' :: (pad3 b).data) :
    pyParseFloat s = some ((a : ℚ) + (b : ℚ) / 1000) := by
  unfold pyParseFloat
  rw [hdata]
  match hnd : (natDec a).data with
  | [] => exact absurd hnd (natDec_ne_nil a)
  | c :: cs =>
    have hc := natDec_digits a c (by rw [hnd]; exact List.mem_cons_self c cs)
    rw [List.cons_append]
    dsimp only
    rw [if_neg (by intro h; subst h; revert hc; decide),
      if_neg (by intro h; subst h; revert hc; decide),
      ← List.cons_append, ← hnd, pyParseFloatMag_natDec_pad3 a b hb]

theorem pyParseFloat_of_data_neg (s : String) (a b : Nat) (hb : b < 1000)
    (hdata : s.data = '-' :: ((natDec a).data ++ '.' :: (pad3 b).data)) :
    pyParseFloat s = some (-((a : ℚ) + (b : ℚ) / 1000)) := by
  unfold pyParseFloat
  rw [hdata]
  dsimp only
  rw [if_pos rfl,
    if_neg (by
      intro hand
      have := List.isEmpty_iff.mp hand
      exact natDec_ne_nil a (List.append_eq_nil.mp this).1),
    pyParseFloatMag_natDec_pad3 a b hb]
  rfl

theorem divmod_cast_q (n : Nat) :
    ((n / 1000 : Nat) : ℚ) + ((n % 1000 : Nat) : ℚ) / 1000 = (n : ℚ) / 1000 := by
  have hdm : n / 1000 * 1000 + n % 1000 = n := by omega
  have hsplit : ((n / 1000 * 1000 + n % 1000 : Nat) : ℚ) = (n : ℚ) := by
    rw [hdm]
  push_cast at hsplit
  field_simp
  linarith

theorem pyParseFloat_fmt3 (q : ℚ) : pyParseFloat (fmt3 q) = some (roundTrip3 q) := by
  have hb : (roundHalfEven (q * 1000)).natAbs % 1000 < 1000 :=
    Nat.mod_lt _ (by norm_num)
  by_cases hneg : roundHalfEven (q * 1000) < 0
  · have hdata := fmt3_data q
    rw [if_pos hneg] at hdata
    rw [pyParseFloat_of_data_neg (fmt3 q) _ _ hb (by rw [hdata]; rfl)]
    unfold roundTrip3
    rw [divmod_cast_q]
    have : (((roundHalfEven (q * 1000)).natAbs : Nat) : ℚ) =
        -((roundHalfEven (q * 1000) : ℤ) : ℚ) := by
      rw [Int.cast_natAbs, abs_of_neg hneg]
      exact Int.cast_neg _
    rw [this]
    ring
  · have hdata := fmt3_data q
    rw [if_neg hneg] at hdata
    rw [pyParseFloat_of_data_pos (fmt3 q) _ _ hb (by rw [hdata]; rfl)]
    unfold roundTrip3
    rw [divmod_cast_q]
    have : (((roundHalfEven (q * 1000)).natAbs : Nat) : ℚ) =
        ((roundHalfEven (q * 1000) : ℤ) : ℚ) := by
      rw [Int.cast_natAbs, abs_of_nonneg (not_lt.mp hneg)]
    rw [this]

theorem roundHalfEven_intCast (k : ℤ) : roundHalfEven (k : ℚ) = k := by
  unfold roundHalfEven
  rw [Int.floor_intCast]
  norm_num

theorem roundTrip3_exact (k : ℤ) : roundTrip3 ((k : ℚ) / 1000) = (k : ℚ) / 1000 := by
  unfold roundTrip3
  rw [div_mul_cancel₀ _ (by norm_num : (1000 : ℚ) ≠ 0), roundHalfEven_intCast]

theorem importRow_skip (st : EasyPD.ImpState) (row : List String)
    (h : pyParseInt (row.getD 0 "") = none) :
    EasyPD.importRow st row = st := by
  unfold EasyPD.importRow
  by_cases hlen : row.length < 5
  · rw [if_pos hlen]
  · rw [if_neg hlen, h]

theorem importRow_exportProtRow (st : EasyPD.ImpState) (r : EasyPD.ProtRec) :
    EasyPD.importRow st (EasyPD.exportProtRow r) =
      EasyPD.addProt st (reimportProt r) := by
  unfold EasyPD.importRow EasyPD.exportProtRow
  rw [if_neg (by simp)]
  rw [show [intDec r.index, r.timestamp, fmt3 r.relativeTime, r.rtype, r.summary,
      EasyPD.exportDetail r].getD 0 "" = intDec r.index from rfl, pyParseInt_intDec]
  dsimp only
  rw [show [intDec r.index, r.timestamp, fmt3 r.relativeTime, r.rtype, r.summary,
      EasyPD.exportDetail r].getD 2 "" = fmt3 r.relativeTime from rfl, pyParseFloat_fmt3]
  dsimp only
  rw [if_neg (by simp)]
  rfl

theorem importRow_exportMeasRow (st : EasyPD.ImpState) (m : EasyPD.MeasRec)
    (row : List String) (h : EasyPD.exportMeasRow m = some row) :
    EasyPD.importRow st row = EasyPD.addMeas st (reimportMeas m) := by
  unfold EasyPD.exportMeasRow at h
  match hv : m.voltage, hc : m.current, hp : m.power with
  | none, _, _ => rw [hv] at h; cases h
  | some v, none, _ => rw [hv, hc] at h; cases h
  | some v, some c, none => rw [hv, hc, hp] at h; cases h
  | some v, some c, some p =>
    rw [hv, hc, hp] at h
    dsimp only at h
    have hrow := (Option.some.injEq _ _).mp h
    subst hrow
    unfold EasyPD.importRow
    rw [if_neg (by simp)]
    rw [show [intDec m.index, m.timestamp, fmt3 m.relativeTime, m.rtype,
        "V:" ++ fmt3 v ++ "V I:" ++ fmt3 c ++ "A P:" ++ fmt3 p ++ "W",
        "", fmt3 v, fmt3 c, fmt3 p].getD 0 "" = intDec m.index from rfl,
      pyParseInt_intDec]
    dsimp only
    rw [show [intDec m.index, m.timestamp, fmt3 m.relativeTime, m.rtype,
        "V:" ++ fmt3 v ++ "V I:" ++ fmt3 c ++ "A P:" ++ fmt3 p ++ "W",
        "", fmt3 v, fmt3 c, fmt3 p].getD 2 "" = fmt3 m.relativeTime from rfl,
      pyParseFloat_fmt3]
    dsimp only
    rw [if_pos (by
      refine ⟨by simp, ?_, ?_, ?_⟩ <;>
        exact fun hth => fmt3_ne_empty _ hth)]
    rw [show [intDec m.index, m.timestamp, fmt3 m.relativeTime, m.rtype,
        "V:" ++ fmt3 v ++ "V I:" ++ fmt3 c ++ "A P:" ++ fmt3 p ++ "W",
        "", fmt3 v, fmt3 c, fmt3 p].getD 6 "" = fmt3 v from rfl,
      show [intDec m.index, m.timestamp, fmt3 m.relativeTime, m.rtype,
        "V:" ++ fmt3 v ++ "V I:" ++ fmt3 c ++ "A P:" ++ fmt3 p ++ "W",
        "", fmt3 v, fmt3 c, fmt3 p].getD 7 "" = fmt3 c from rfl,
      show [intDec m.index, m.timestamp, fmt3 m.relativeTime, m.rtype,
        "V:" ++ fmt3 v ++ "V I:" ++ fmt3 c ++ "A P:" ++ fmt3 p ++ "W",
        "", fmt3 v, fmt3 c, fmt3 p].getD 8 "" = fmt3 p from rfl,
      pyParseFloat_fmt3, pyParseFloat_fmt3, pyParseFloat_fmt3]
    dsimp only
    unfold reimportMeas
    rw [hv, hc, hp]
    rfl

theorem foldl_importRow_protRows (prots : List EasyPD.ProtRec) :
    ∀ st, (prots.map EasyPD.exportProtRow).foldl EasyPD.importRow st =
      prots.foldl (fun s r => EasyPD.addProt s (reimportProt r)) st := by
  induction prots with
  | nil => intro st; rfl
  | cons r rs ih =>
    intro st
    rw [List.map_cons, List.foldl_cons, List.foldl_cons, importRow_exportProtRow]
    exact ih _

theorem foldl_importRow_measRows (meas : List EasyPD.MeasRec) :
    ∀ measRows st, meas.mapM EasyPD.exportMeasRow = some measRows →
      measRows.foldl EasyPD.importRow st =
        meas.foldl (fun s m => EasyPD.addMeas s (reimportMeas m)) st := by
  induction meas with
  | nil =>
    intro measRows st h
    rw [List.mapM_nil] at h
    cases h
    rfl
  | cons m ms ih =>
    intro measRows st h
    rw [List.mapM_cons] at h
    match hm : EasyPD.exportMeasRow m with
    | none => rw [hm] at h; cases h
    | some row =>
      rw [hm] at h
      match hms : ms.mapM EasyPD.exportMeasRow with
      | none => rw [hms] at h; cases h
      | some rest =>
        rw [hms] at h
        have : row :: rest = measRows := by
          have := h
          simp only [Option.bind_eq_bind, Option.bind_some] at this
          exact (Option.some.injEq _ _).mp this
        subst this
        rw [List.foldl_cons, List.foldl_cons,
          importRow_exportMeasRow st m row hm]
        exact ih rest _ hms

theorem foldl_addProt_stores (prots : List EasyPD.ProtRec) :
    ∀ st : EasyPD.ImpState,
      (prots.foldl (fun s r => EasyPD.addProt s (reimportProt r)) st).rawLog =
        st.rawLog ++ prots.map reimportProt ∧
      (prots.foldl (fun s r => EasyPD.addProt s (reimportProt r)) st).rawMeas =
        st.rawMeas := by
  induction prots with
  | nil => intro st; simp
  | cons r rs ih =>
    intro st
    rw [List.foldl_cons]
    obtain ⟨h1, h2⟩ := ih (EasyPD.addProt st (reimportProt r))
    refine ⟨?_, ?_⟩
    · rw [h1]
      simp [EasyPD.addProt]
    · rw [h2]
      simp [EasyPD.addProt]

theorem foldl_addMeas_stores (meas : List EasyPD.MeasRec) :
    ∀ st : EasyPD.ImpState,
      (meas.foldl (fun s m => EasyPD.addMeas s (reimportMeas m)) st).rawMeas =
        st.rawMeas ++ meas.map reimportMeas ∧
      (meas.foldl (fun s m => EasyPD.addMeas s (reimportMeas m)) st).rawLog =
        st.rawLog := by
  induction meas with
  | nil => intro st; simp
  | cons m ms ih =>
    intro st
    rw [List.foldl_cons]
    obtain ⟨h1, h2⟩ := ih (EasyPD.addMeas st (reimportMeas m))
    refine ⟨?_, ?_⟩
    · rw [h1]
      simp [EasyPD.addMeas]
    · rw [h2]
      simp [EasyPD.addMeas]

/-- C8: exporting the raw records to CSV and importing the resulting rows
rebuilds exactly as many protocol and measurement records, and reproduces the
(index, relative_time, kind, summary) view of every record — identically for
index and summary (summary is compared on protocol records; imported
measurement records store no summary, as in the source), for kind provided
each measurement record already carried the kind MEASUREMENT that the import
hard-codes, and for relative_time provided the original value was an exact
multiple of one millisecond, since the export renders it with three decimals;
the header row is dropped either by the header-variant check or because its
first label does not parse as an integer. -/
theorem c8_export_import_roundtrip
    (hdr6 zh6 en6 : List String) (prots : List EasyPD.ProtRec)
    (meas : List EasyPD.MeasRec) (rows : List (List String))
    (hexp : EasyPD.export_csv hdr6 prots meas = some rows)
    (hhdr : pyParseInt ((hdr6 ++ ["Voltage(V)", "Current(A)", "Power(W)"]).getD 0 "")
      = none)
    (hpt : ∀ r ∈ prots, ∃ k : ℤ, r.relativeTime = (k : ℚ) / 1000)
    (hmt : ∀ m ∈ meas,
      m.rtype = "MEASUREMENT" ∧ ∃ k : ℤ, m.relativeTime = (k : ℚ) / 1000) :
    (EasyPD.import_csv zh6 en6 rows).rawLog.length = prots.length ∧
    (EasyPD.import_csv zh6 en6 rows).rawMeas.length = meas.length ∧
    (EasyPD.import_csv zh6 en6 rows).rawLog.map
        (fun r => (r.index, r.relativeTime, r.rtype, r.summary)) =
      prots.map (fun r => (r.index, r.relativeTime, r.rtype, r.summary)) ∧
    (EasyPD.import_csv zh6 en6 rows).rawMeas.map
        (fun m => (m.index, m.relativeTime, m.rtype)) =
      meas.map (fun m => (m.index, m.relativeTime, m.rtype)) := by
  unfold EasyPD.export_csv at hexp
  by_cases hemp : prots.isEmpty ∧ meas.isEmpty
  · rw [if_pos hemp] at hexp
    cases hexp
  · rw [if_neg hemp] at hexp
    match hmr : meas.mapM EasyPD.exportMeasRow with
    | none => rw [hmr] at hexp; cases hexp
    | some measRows =>
      rw [hmr] at hexp
      dsimp only [Option.map] at hexp
      have hrows := (Option.some.injEq _ _).mp hexp
      subst hrows
      have hcommon :
          (prots.map EasyPD.exportProtRow ++ measRows).foldl EasyPD.importRow
              EasyPD.emptyImpState =
            meas.foldl (fun s m => EasyPD.addMeas s (reimportMeas m))
              (prots.foldl (fun s r => EasyPD.addProt s (reimportProt r))
                EasyPD.emptyImpState) := by
        rw [List.foldl_append, foldl_importRow_protRows,
          foldl_importRow_measRows meas measRows _ hmr]
      have hfinal :
          (meas.foldl (fun s m => EasyPD.addMeas s (reimportMeas m))
              (prots.foldl (fun s r => EasyPD.addProt s (reimportProt r))
                EasyPD.emptyImpState)).rawLog.length = prots.length ∧
          (meas.foldl (fun s m => EasyPD.addMeas s (reimportMeas m))
              (prots.foldl (fun s r => EasyPD.addProt s (reimportProt r))
                EasyPD.emptyImpState)).rawMeas.length = meas.length ∧
          (meas.foldl (fun s m => EasyPD.addMeas s (reimportMeas m))
              (prots.foldl (fun s r => EasyPD.addProt s (reimportProt r))
                EasyPD.emptyImpState)).rawLog.map
              (fun r => (r.index, r.relativeTime, r.rtype, r.summary)) =
            prots.map (fun r => (r.index, r.relativeTime, r.rtype, r.summary)) ∧
          (meas.foldl (fun s m => EasyPD.addMeas s (reimportMeas m))
              (prots.foldl (fun s r => EasyPD.addProt s (reimportProt r))
                EasyPD.emptyImpState)).rawMeas.map
              (fun m => (m.index, m.relativeTime, m.rtype)) =
            meas.map (fun m => (m.index, m.relativeTime, m.rtype)) := by
        obtain ⟨hP1, hP2⟩ := foldl_addProt_stores prots EasyPD.emptyImpState
        obtain ⟨hM1, hM2⟩ := foldl_addMeas_stores meas
          (prots.foldl (fun s r => EasyPD.addProt s (reimportProt r))
            EasyPD.emptyImpState)
        refine ⟨?_, ?_, ?_, ?_⟩
        · rw [hM2, hP1]
          simp [EasyPD.emptyImpState]
        · rw [hM1, hP2]
          simp [EasyPD.emptyImpState]
        · rw [hM2, hP1]
          simp only [EasyPD.emptyImpState, List.nil_append, List.map_map]
          apply List.map_congr_left
          intro r hr
          obtain ⟨k, hk⟩ := hpt r hr
          simp only [Function.comp]
          unfold reimportProt EasyPD.importProtOf
          dsimp only
          rw [hk, roundTrip3_exact]
        · rw [hM1, hP2]
          simp only [EasyPD.emptyImpState, List.nil_append, List.map_map]
          apply List.map_congr_left
          intro m hm
          obtain ⟨hty, k, hk⟩ := hmt m hm
          simp only [Function.comp]
          unfold reimportMeas
          dsimp only
          rw [hk, roundTrip3_exact, hty]
      unfold EasyPD.import_csv
      dsimp only
      by_cases hh : hdr6 ++ ["Voltage(V)", "Current(A)", "Power(W)"] = zh6 ∨
          hdr6 ++ ["Voltage(V)", "Current(A)", "Power(W)"] = en6
      · rw [if_pos hh, hcommon]
        exact hfinal
      · rw [if_neg hh, List.foldl_cons, importRow_skip _ _ hhdr, hcommon]
        exact hfinal

/-- Concrete round trip: one PDO protocol record at half a second and one
complete measurement record at one second survive export and import with
their tuples intact. -/
theorem c8_export_import_roundtrip_witness :
    (EasyPD.import_csv c8cHdr6 c8cHdr6 c8wRows).rawLog.length = [c8wProt].length ∧
    (EasyPD.import_csv c8cHdr6 c8cHdr6 c8wRows).rawMeas.length = [c8wMeas].length ∧
    (EasyPD.import_csv c8cHdr6 c8cHdr6 c8wRows).rawLog.map
        (fun r => (r.index, r.relativeTime, r.rtype, r.summary)) =
      [c8wProt].map (fun r => (r.index, r.relativeTime, r.rtype, r.summary)) ∧
    (EasyPD.import_csv c8cHdr6 c8cHdr6 c8wRows).rawMeas.map
        (fun m => (m.index, m.relativeTime, m.rtype)) =
      [c8wMeas].map (fun m => (m.index, m.relativeTime, m.rtype)) :=
  c8_export_import_roundtrip c8cHdr6 c8cHdr6 c8cHdr6 [c8wProt] [c8wMeas] c8wRows
    rfl
    (by decide)
    (by
      intro r hr
      rw [List.mem_singleton] at hr
      subst hr
      exact ⟨500, by norm_num [c8wProt]⟩)
    (by
      intro m hm
      rw [List.mem_singleton] at hm
      subst hm
      exact ⟨rfl, 1000, by norm_num [c8wMeas]⟩)

/-- Exporting a protocol record whose relative time is 1/10000 s and importing
the file back yields a record with relative time 0: the three-decimal wire
format loses sub-millisecond precision, so the reconstructed
(index, relative_time, kind, summary) tuple differs from the original. -/
theorem c8_counterexample :
    EasyPD.export_csv c8cHdr6 [c8cProt] [] = some c8cRows ∧
    c8cProt.relativeTime = 1 / 10000 ∧
    (EasyPD.import_csv c8cHdr6 c8cHdr6 c8cRows).rawLog.map
        (fun r => r.relativeTime) = [0] ∧
    [c8cProt].map (fun r => r.relativeTime) ≠ [0] := by
  have hrt : roundTrip3 ((10000 : ℚ)⁻¹) = 0 := by
    unfold roundTrip3 roundHalfEven
    norm_num
  refine ⟨?_, rfl, ?_, ?_⟩
  · unfold EasyPD.export_csv
    rw [if_neg (by simp)]
    rfl
  · unfold EasyPD.import_csv c8cRows
    dsimp only
    rw [if_neg (by decide)]
    rw [show [c8cProt].map EasyPD.exportProtRow ++ ([] : List (List String)) =
      [EasyPD.exportProtRow c8cProt] from rfl]
    rw [List.foldl_cons, importRow_skip _ _ (by decide), List.foldl_cons,
      importRow_exportProtRow, List.foldl_nil]
    simp only [EasyPD.addProt, EasyPD.emptyImpState, List.nil_append,
      List.map_singleton]
    simp [reimportProt, EasyPD.importProtOf, c8cProt, hrt]
  · intro h
    rw [List.map_singleton] at h
    have := List.head_eq_of_cons_eq h
    rw [show c8cProt.relativeTime = (1 : ℚ) / 10000 from rfl] at this
    norm_num at this
